import Mathlib

/-!
The MQTT to CAN bridge `TCU/tcu.c`: a shallow embedding of the program and
theorems about it.

* C strings are byte lists.  A *buffer* (`List Nat`) is the memory a `char *`
  points at, terminator included; reading past the end of the list yields `0`.
* Library calls whose result the program branches on (`write`, `strndup`,
  `socket`, `mosquitto_new`, ...) take their result from an explicit
  environment argument.
* Every externally visible action is an `Event`; functions return the list of
  events they perform, in program order.
-/

namespace TCU

/-! ## C library: `<ctype.h>`, `<string.h>`, `<strings.h>` in the "C" locale -/

/-- The bytes of an ASCII string literal (without terminator). -/
def lit (s : String) : List Nat := s.toList.map Char.toNat

/-- Models `isspace` in the "C" locale: space, `\t`, `\n`, `\v`, `\f`, `\r`. -/
def isspace (c : Nat) : Bool := c == 0x20 || (0x09 ≤ c && c ≤ 0x0d)

/-- Models `tolower` in the "C" locale: only `A`..`Z` are mapped. -/
def tolower (c : Nat) : Nat := if 0x41 ≤ c ∧ c ≤ 0x5a then c + 0x20 else c

/-- Models `strlen(s)`: number of bytes before the first zero byte. -/
def strlen : List Nat → Nat
  | [] => 0
  | c :: cs => if c = 0 then 0 else strlen cs + 1

/-- The text a `char *` denotes: the bytes before the first zero byte. -/
def c_str (s : List Nat) : List Nat := s.takeWhile (fun c => c != 0)

/-- Models `memmove(s, s + p, n)` on the buffer `s`: the first `n` bytes of `s` are
replaced by the `n` bytes starting at offset `p`. -/
def memmove (s : List Nat) (p n : Nat) : List Nat :=
  (s.drop p).take n ++ s.drop n

/-- Models `strndup(src, n)`: a fresh buffer holding the bytes of `src` up to the first
zero byte, at most `n` of them, followed by a terminator. -/
def strndup (src : List Nat) (n : Nat) : List Nat :=
  c_str (src.take n) ++ [0]

/-- Models `strcasecmp(a, b)`: compares byte by byte after `tolower`, stopping at the
first difference or at the terminator. -/
def strcasecmp : List Nat → List Nat → Int
  | [], b => (tolower 0 : Int) - (tolower (b.headD 0) : Int)
  | x :: xs, b =>
    if tolower x ≠ tolower (b.headD 0) then (tolower x : Int) - (tolower (b.headD 0) : Int)
    else if tolower x = 0 then 0
    else strcasecmp xs b.tail

/-- Models `strncpy(dst, src, n)` where `src` is given by its text: copies at most `n`
bytes and pads with zero bytes up to `n`. -/
def strncpy (dst src : List Nat) (n : Nat) : List Nat :=
  (src.take n ++ List.replicate (n - src.length) 0) ++ dst.drop n

/-! ## `trim` (tcu.c:45-54) -/

/-- The loop `while (*p && isspace((unsigned char)*p)) p++;` — returns `p - s`. -/
def skip_leading : List Nat → Nat
  | [] => 0
  | c :: cs => if c ≠ 0 ∧ isspace c = true then skip_leading cs + 1 else 0

/-- The loop `while (n > 0 && isspace((unsigned char)s[n-1])) s[--n] = '\0';`. -/
def trim_trailing (s : List Nat) : Nat → List Nat
  | 0 => s
  | n + 1 => if isspace (s.getD n 0) = true then trim_trailing (s.set n 0) n else s

/-- Models `trim(s)`; `none` is the null pointer. -/
def trim : Option (List Nat) → Option (List Nat)
  | none => none
  | some s =>
    let p := skip_leading s
    let s1 := if p ≠ 0 then memmove s p (strlen (s.drop p) + 1) else s
    let n := strlen s1
    some (trim_trailing s1 n)

/-! ## Constants -/

/-- Source `#define TOPIC "status/door"` -/
def TOPIC : String := "status/door"
/-- Source `#define CAN_ID_CMD 0x200` -/
def CAN_ID_CMD : Nat := 0x200
/-- Source `#define CMD_LOCK 0x30` -/
def CMD_LOCK : Nat := 0x30
/-- Source `#define CMD_UNLOCK 0x31` -/
def CMD_UNLOCK : Nat := 0x31

/-- Constant `IFNAMSIZ` from `<net/if.h>`. -/
def IFNAMSIZ : Nat := 16
/-- Constant `MOSQ_ERR_SUCCESS` from `<mosquitto.h>`. -/
def MOSQ_ERR_SUCCESS : Int := 0
/-- Constant `CAN_EFF_FLAG` from `<linux/can.h>`: extended frame format. -/
def CAN_EFF_FLAG : Nat := 0x80000000
/-- Constant `CAN_RTR_FLAG` from `<linux/can.h>`: remote transmission request. -/
def CAN_RTR_FLAG : Nat := 0x40000000
/-- Constant `CAN_ERR_FLAG` from `<linux/can.h>`: error message frame. -/
def CAN_ERR_FLAG : Nat := 0x20000000
/-- Constant `CAN_SFF_MASK` from `<linux/can.h>`: the 11 bits of a standard identifier. -/
def CAN_SFF_MASK : Nat := 0x7FF

/-! ## Data -/

/-- Models `struct can_frame` from `<linux/can.h>`: 32-bit identifier, length byte,
three padding/reserved bytes, eight data bytes. -/
structure can_frame where
  can_id : Nat
  can_dlc : Nat
  pad : Nat
  res0 : Nat
  res1 : Nat
  data : List Nat
  deriving DecidableEq, Repr

/-- Constant `sizeof(struct can_frame)`. -/
def sizeof_can_frame : Int := 16

/-- The frame after `memset(&frame, 0, sizeof(frame))`. -/
def can_frame.zero : can_frame :=
  { can_id := 0, can_dlc := 0, pad := 0, res0 := 0, res1 := 0, data := List.replicate 8 0 }

/-- Models `struct mosquitto_message` (the fields the program reads); `payload = none`
is a null payload pointer. -/
structure mosquitto_message where
  topic : List Nat
  payload : Option (List Nat)
  payloadlen : Int
  deriving DecidableEq, Repr

/-- The file-scope variables of the program. -/
structure Globals where
  g_running : Int
  can_sock : Int
  can_ifname : List Nat
  deriving DecidableEq, Repr

/-- The initial values: `g_running = 1`, `can_sock = -1`, `can_ifname = "can0"`. -/
def Globals.init : Globals :=
  { g_running := 1, can_sock := -1, can_ifname := lit "can0" ++ List.replicate 12 0 }

/-- The lines the program prints with `fprintf`. -/
inductive Msg where
  /-- Line `"[MQTT] Connected. Subscribing to %s\n"` -/
  | connected (topic : String)
  /-- Line `"[MQTT] Connect failed, rc=%d\n"` -/
  | connect_failed (rc : Int)
  /-- Line `"[MQTT] %s => '%s'\n"` -/
  | received (topic buf : List Nat)
  /-- Line `"[CAN] Sent LOCK (0x30)\n"` -/
  | sent_lock
  /-- Line `"[CAN] Failed to send LOCK\n"` -/
  | failed_lock
  /-- Line `"[CAN] Sent UNLOCK (0x31)\n"` -/
  | sent_unlock
  /-- Line `"[CAN] Failed to send UNLOCK\n"` -/
  | failed_unlock
  /-- Line `"[WARN] Unknown payload: '%s' (expected 'lock' or 'unlock')\n"` -/
  | unknown_payload (buf : List Nat)
  /-- The usage text, with `argv[0]`. -/
  | usage (prog : Option (List Nat))
  /-- Line `"Failed to open CAN interface '%s'\n"` -/
  | can_open_failed (ifname : List Nat)
  /-- Line `"[CAN] Opened interface %s\n"` -/
  | can_opened (ifname : List Nat)
  /-- Line `"mosquitto_new failed\n"` -/
  | new_failed
  /-- Line `"mosquitto_tls_set failed\n"` -/
  | tls_set_failed
  /-- Line `"mosquitto_connect failed: %s\n"` with `mosquitto_strerror(rc)` -/
  | mqtt_connect_failed (rc : Int)
  /-- Line `"[MAIN] Running. Press Ctrl+C to exit.\n"` -/
  | running
  /-- Line `"[MAIN] Shutting down...\n"` -/
  | shutting_down
  deriving DecidableEq, Repr

/-- The externally visible actions of the program. -/
inductive Event where
  /-- Call `fprintf(stdout, ...)` -/
  | stdout (m : Msg)
  /-- Call `fprintf(stderr, ...)` -/
  | stderr (m : Msg)
  /-- Call `perror(tag)` -/
  | perror (tag : String)
  /-- Entry into `can_send_cmd(cmd_byte)`: one bus send attempt. -/
  | can_send_cmd (cmd_byte : Nat)
  /-- Call `write(fd, &frame, sizeof(frame))` -/
  | write (fd : Int) (frame : can_frame)
  /-- Call `mosquitto_subscribe(mosq, NULL, topic, qos)` -/
  | subscribe (topic : String) (qos : Int)
  /-- Call `signal(signum, handle_sigint)` -/
  | signal (signum : String)
  /-- Call `socket(PF_CAN, SOCK_RAW, CAN_RAW)` and the value it returned -/
  | socket (ret : Int)
  /-- Call `ioctl(s, SIOCGIFINDEX, &ifr)` with `ifr.ifr_name` -/
  | ioctl (s : Int) (ifr_name : List Nat)
  /-- Call `bind(s, &addr, sizeof(addr))` with `addr.can_ifindex` -/
  | bind (s : Int) (ifindex : Int)
  /-- Call `close(fd)` -/
  | close (fd : Int)
  /-- Call `mosquitto_lib_init()` -/
  | lib_init
  /-- Call `mosquitto_new(NULL, true, NULL)` and whether it returned an object -/
  | mosquitto_new (ok : Bool)
  /-- Call `mosquitto_tls_set(mosq, cafile, NULL, certfile, keyfile, NULL)` -/
  | tls_set (cafile certfile keyfile : List Nat)
  /-- Call `mosquitto_tls_opts_set(mosq, cert_reqs, tls_version, NULL)` -/
  | tls_opts_set (cert_reqs : Int) (tls_version : String)
  /-- Call `mosquitto_connect_callback_set(mosq, on_connect)` -/
  | connect_callback_set
  /-- Call `mosquitto_message_callback_set(mosq, on_message)` -/
  | message_callback_set
  /-- Call `mosquitto_connect(mosq, host, port, keepalive)` -/
  | connect (host : List Nat) (port : Int) (keepalive : Int)
  /-- Call `mosquitto_loop_start(mosq)` -/
  | loop_start
  /-- Call `sleep(seconds)` -/
  | sleep (seconds : Nat)
  /-- Call `mosquitto_loop_stop(mosq, force)` -/
  | loop_stop (force : Bool)
  /-- Call `mosquitto_disconnect(mosq)` -/
  | disconnect
  /-- Call `mosquitto_destroy(mosq)` -/
  | destroy
  /-- Call `mosquitto_lib_cleanup()` -/
  | lib_cleanup
  deriving DecidableEq, Repr

/-- What a call leaves behind: its return value (`0` for a `void` function),
the events it performed and the file-scope variables afterwards. -/
structure Outcome where
  ret : Int
  trace : List Event
  globals : Globals
  deriving DecidableEq, Repr

/-! ## `handle_sigint` (tcu.c:40-43) -/

/-- Models `handle_sigint(sig)`: clears the running flag. -/
def handle_sigint (g : Globals) : Globals := { g with g_running := 0 }

/-! ## `can_send_cmd` (tcu.c:82-96) -/

/-- The frame `can_send_cmd` builds: zeroed, then identifier, length and first
data byte are assigned.  `cmd_byte` is a `uint8_t`. -/
def build_frame (cmd_byte : Nat) : can_frame :=
  let frame := can_frame.zero
  let frame := { frame with can_id := CAN_ID_CMD }
  let frame := { frame with can_dlc := 1 }
  { frame with data := frame.data.set 0 (cmd_byte % 256) }

/-- Models `can_send_cmd(cmd_byte)`; `write_ret` is the value the `write` call
returns, should it be made. -/
def can_send_cmd (g : Globals) (cmd_byte : Nat) (write_ret : Int) : Outcome :=
  if g.can_sock < 0 then
    { ret := -1, trace := [Event.can_send_cmd cmd_byte], globals := g }
  else
    let frame := build_frame cmd_byte
    let n := write_ret
    if n ≠ sizeof_can_frame then
      { ret := -1,
        trace := [Event.can_send_cmd cmd_byte, Event.write g.can_sock frame,
                  Event.perror "write(can)"],
        globals := g }
    else
      { ret := 0,
        trace := [Event.can_send_cmd cmd_byte, Event.write g.can_sock frame],
        globals := g }

/-! ## MQTT callbacks (tcu.c:100-134) -/

/-- Models `on_connect(mosq, userdata, rc)`; `subscribe_ret` is the value
`mosquitto_subscribe` returns, should it be called. -/
def on_connect (g : Globals) (rc : Int) (subscribe_ret : Int) : Outcome :=
  if rc = 0 then
    let _ignored := subscribe_ret
    { ret := 0,
      trace := [Event.stdout (Msg.connected TOPIC), Event.subscribe TOPIC 1],
      globals := g }
  else
    { ret := 0, trace := [Event.stderr (Msg.connect_failed rc)], globals := g }

/-- Models `on_message(mosq, userdata, msg)`; `msg = none` is a null message pointer,
`alloc_ok` tells whether `strndup` returns a buffer, `write_ret` is the value
of the `write` call inside `can_send_cmd`.  The inner `none` branch of
`trim buf` is the null case of `trim`, not reached after `if (!buf) return;`. -/
def on_message (g : Globals) (msg : Option mosquitto_message) (alloc_ok : Bool)
    (write_ret : Int) : Outcome :=
  match msg with
  | none => { ret := 0, trace := [], globals := g }
  | some m =>
    match m.payload with
    | none => { ret := 0, trace := [], globals := g }
    | some payload =>
      if m.payloadlen ≤ 0 then { ret := 0, trace := [], globals := g }
      else
        let buf := if alloc_ok then some (strndup payload m.payloadlen.toNat) else none
        if buf.isNone then { ret := 0, trace := [], globals := g }
        else
          match trim buf with
          | none => { ret := 0, trace := [], globals := g }
          | some buf =>
            let e0 := Event.stdout (Msg.received m.topic (c_str buf))
            if strcasecmp buf (lit "lock" ++ [0]) = 0 then
              let r := can_send_cmd g CMD_LOCK write_ret
              { ret := 0,
                trace := e0 :: r.trace ++
                  [Event.stdout (if r.ret = 0 then Msg.sent_lock else Msg.failed_lock)],
                globals := r.globals }
            else if strcasecmp buf (lit "unlock" ++ [0]) = 0 then
              let r := can_send_cmd g CMD_UNLOCK write_ret
              { ret := 0,
                trace := e0 :: r.trace ++
                  [Event.stdout (if r.ret = 0 then Msg.sent_unlock else Msg.failed_unlock)],
                globals := r.globals }
            else
              { ret := 0,
                trace := [e0, Event.stderr (Msg.unknown_payload (c_str buf))],
                globals := g }

/-! ## The environment of `main` -/

/-- The results of the external calls `main` and `can_open` branch on.
`pending i` tells whether a SIGINT/SIGTERM was delivered (so that
`handle_sigint` ran) before the `i`-th evaluation of the wait loop's
condition. -/
structure Env where
  socket_ret : Int
  ioctl_ret : Int
  ifr_ifindex : Int
  bind_ret : Int
  new_ok : Bool
  tls_set_ret : Int
  connect_ret : Int
  pending : Nat → Bool
  atoi : List Nat → Int

/-! ## `can_open` (tcu.c:56-80) -/

/-- Models `can_open(ifname)`: the returned descriptor (or `-1`) and the events. -/
def can_open (env : Env) (ifname : List Nat) : Int × List Event :=
  let s := env.socket_ret
  if s < 0 then (-1, [Event.socket s, Event.perror "socket(PF_CAN)"])
  else
    let ifr_name := strncpy (List.replicate IFNAMSIZ 0) ifname (IFNAMSIZ - 1)
    if env.ioctl_ret < 0 then
      (-1, [Event.socket s, Event.ioctl s (c_str ifr_name), Event.perror "ioctl(SIOCGIFINDEX)",
            Event.close s])
    else if env.bind_ret < 0 then
      (-1, [Event.socket s, Event.ioctl s (c_str ifr_name), Event.bind s env.ifr_ifindex,
            Event.perror "bind(can)", Event.close s])
    else
      (s, [Event.socket s, Event.ioctl s (c_str ifr_name), Event.bind s env.ifr_ifindex])

/-! ## `main` (tcu.c:145-236) -/

/-- The local variables of `main` that the flag loop assigns; `none` is `NULL`. -/
structure Locals where
  host : Option (List Nat)
  port : Int
  cafile : Option (List Nat)
  certfile : Option (List Nat)
  keyfile : Option (List Nat)
  deriving DecidableEq, Repr

/-- Their initial values. -/
def Locals.init : Locals :=
  { host := none, port := 8883, cafile := none, certfile := none, keyfile := none }

/-- The flag loop `for (int i = 1; i < argc; i++)`, run on `argv[i..]`.
`i+1 < argc` holds exactly when a further token follows; on the last token
every test fails and the `else` branch is taken.  The first component is
`none` when the `else` branch (usage, `return 1`) was reached. -/
def parse_flags (atoi : List Nat → Int) :
    List (List Nat) → Locals → Globals → Option Locals × Globals
  | [], a, g => (some a, g)
  | [_], _, g => (none, g)
  | t :: v :: rest, a, g =>
    if t = lit "--host" then parse_flags atoi rest { a with host := some v } g
    else if t = lit "--port" then parse_flags atoi rest { a with port := atoi v } g
    else if t = lit "--cafile" then parse_flags atoi rest { a with cafile := some v } g
    else if t = lit "--cert" then parse_flags atoi rest { a with certfile := some v } g
    else if t = lit "--key" then parse_flags atoi rest { a with keyfile := some v } g
    else if t = lit "--canif" then
      let buf := strncpy g.can_ifname v (IFNAMSIZ - 1)
      let buf := buf.set (IFNAMSIZ - 1) 0
      parse_flags atoi rest a { g with can_ifname := buf }
    else (none, g)

/-- The loop `while (g_running) sleep(1);`, from the `i`-th evaluation of its
condition on.  `none`: the fuel ran out before the flag was seen cleared. -/
def wait_loop (pending : Nat → Bool) : Nat → Nat → Globals → Option (List Event × Globals)
  | _, 0, _ => none
  | i, fuel + 1, g =>
    let g := if pending i = true then handle_sigint g else g
    if g.g_running ≠ 0 then
      (wait_loop pending (i + 1) fuel g).map (fun r => (Event.sleep 1 :: r.1, r.2))
    else some ([], g)

/-- Models `main(argc, argv)` with `argv` given as the list of its `argc` strings;
`fuel` bounds the number of evaluations of the wait loop's condition. -/
def main (env : Env) (argv : List (List Nat)) (fuel : Nat) : Option Outcome :=
  match parse_flags env.atoi (argv.drop 1) Locals.init Globals.init with
  | (none, g) =>
    some { ret := 1, trace := [Event.stderr (Msg.usage argv.head?)], globals := g }
  | (some a, g) =>
    match a.host, a.cafile, a.certfile, a.keyfile with
    | some host, some cafile, some certfile, some keyfile =>
      let t0 := [Event.signal "SIGINT", Event.signal "SIGTERM"]
      let r := can_open env (c_str g.can_ifname)
      let g := { g with can_sock := r.1 }
      let t1 := t0 ++ r.2
      if g.can_sock < 0 then
        some { ret := 2,
               trace := t1 ++ [Event.stderr (Msg.can_open_failed (c_str g.can_ifname))],
               globals := g }
      else
        let t2 := t1 ++ [Event.stdout (Msg.can_opened (c_str g.can_ifname)),
                         Event.lib_init, Event.mosquitto_new env.new_ok]
        if ¬ env.new_ok then
          some { ret := 3,
                 trace := t2 ++ [Event.stderr Msg.new_failed, Event.close g.can_sock,
                                 Event.lib_cleanup],
                 globals := g }
        else
          let t3 := t2 ++ [Event.tls_set cafile certfile keyfile]
          if env.tls_set_ret ≠ MOSQ_ERR_SUCCESS then
            some { ret := 4,
                   trace := t3 ++ [Event.stderr Msg.tls_set_failed, Event.destroy,
                                   Event.close g.can_sock, Event.lib_cleanup],
                   globals := g }
          else
            let t4 := t3 ++ [Event.tls_opts_set 1 "tlsv1.2", Event.connect_callback_set,
                             Event.message_callback_set, Event.connect host a.port 60]
            let rc := env.connect_ret
            if rc ≠ MOSQ_ERR_SUCCESS then
              some { ret := 5,
                     trace := t4 ++ [Event.stderr (Msg.mqtt_connect_failed rc), Event.destroy,
                                     Event.close g.can_sock, Event.lib_cleanup],
                     globals := g }
            else
              let t5 := t4 ++ [Event.loop_start, Event.stdout Msg.running]
              match wait_loop env.pending 0 fuel g with
              | none => none
              | some (sleeps, g) =>
                let t6 := t5 ++ sleeps ++ [Event.stdout Msg.shutting_down, Event.loop_stop true,
                                           Event.disconnect, Event.destroy, Event.lib_cleanup]
                some { ret := 0,
                       trace := t6 ++ (if g.can_sock ≥ 0 then [Event.close g.can_sock] else []),
                       globals := g }
    | _, _, _, _ =>
      some { ret := 1, trace := [Event.stderr (Msg.usage argv.head?)], globals := g }

/-! ## Vocabulary of the specification -/

/-- Text with its leading and trailing whitespace removed. -/
def strip (t : List Nat) : List Nat :=
  ((t.dropWhile isspace).reverse.dropWhile isspace).reverse

/-- Equality of two texts up to letter-casing. -/
def eq_ignore_case (a b : List Nat) : Bool := a.map tolower == b.map tolower

/-- The command bytes of the bus send attempts in a trace, in order. -/
def send_attempts (tr : List Event) : List Nat :=
  tr.filterMap fun e => match e with
    | Event.can_send_cmd b => some b
    | _ => none

/-- The frames written to the bus in a trace, in order. -/
def bus_writes (tr : List Event) : List can_frame :=
  tr.filterMap fun e => match e with
    | Event.write _ f => some f
    | _ => none

/-- The events that report an error to the operator: output on standard
error. -/
def Event.is_error_report : Event → Bool
  | Event.stderr _ => true
  | Event.perror _ => true
  | _ => false

/-- The decoding results recorded in a trace: `some b` for a send attempt with
command byte `b`, `none` for an unknown-payload warning. -/
def decodings (tr : List Event) : List (Option Nat) :=
  tr.filterMap fun e => match e with
    | Event.can_send_cmd b => some (some b)
    | Event.stderr (Msg.unknown_payload _) => some none
    | _ => none

/-- The operations on the MQTT session and its library. -/
def Event.is_session_op : Event → Bool
  | Event.lib_init => true
  | Event.mosquitto_new _ => true
  | Event.tls_set _ _ _ => true
  | Event.tls_opts_set _ _ => true
  | Event.connect_callback_set => true
  | Event.message_callback_set => true
  | Event.connect _ _ _ => true
  | Event.subscribe _ _ => true
  | Event.loop_start => true
  | Event.loop_stop _ => true
  | Event.disconnect => true
  | Event.destroy => true
  | Event.lib_cleanup => true
  | _ => false

/-- The values returned by the `socket` calls of a trace, in order. -/
def opens (tr : List Event) : List Int :=
  tr.filterMap fun e => match e with
    | Event.socket r => some r
    | _ => none

/-- The descriptors closed in a trace, in order. -/
def closes (tr : List Event) : List Int :=
  tr.filterMap fun e => match e with
    | Event.close fd => some fd
    | _ => none

/-- The outcomes of the `mosquitto_new` calls of a trace, in order. -/
def constructions (tr : List Event) : List Bool :=
  tr.filterMap fun e => match e with
    | Event.mosquitto_new ok => some ok
    | _ => none

/-- The life of a handle while a trace is replayed: not yet requested,
requested without success, held, released. -/
inductive Res where
  | fresh
  | failed
  | held (fd : Int)
  | released
  deriving DecidableEq, Repr

/-- The bus descriptor: `socket` is allowed only on a fresh handle, `close`
only on the descriptor that is held. -/
def bus_step : Res → Event → Option Res
  | Res.fresh, Event.socket r => some (if r < 0 then Res.failed else Res.held r)
  | _, Event.socket _ => none
  | Res.held fd, Event.close fd2 => if fd2 = fd then some Res.released else none
  | _, Event.close _ => none
  | s, _ => some s

/-- The session object: `mosquitto_new` is allowed only on a fresh handle,
`mosquitto_destroy` only on an object that is held. -/
def session_step : Res → Event → Option Res
  | Res.fresh, Event.mosquitto_new ok => some (if ok then Res.held 0 else Res.failed)
  | _, Event.mosquitto_new _ => none
  | Res.held _, Event.destroy => some Res.released
  | _, Event.destroy => none
  | s, _ => some s

/-- Replays a trace from a handle state; `none` when a step is not allowed. -/
def replay (step : Res → Event → Option Res) : Res → List Event → Option Res
  | s, [] => some s
  | s, e :: es =>
    match step s e with
    | none => none
    | some s2 => replay step s2 es

/-- A trace respects the discipline of a handle when it replays from `fresh`
without a forbidden step and does not end with the handle still held. -/
def discipline (step : Res → Event → Option Res) (tr : List Event) : Bool :=
  match replay step Res.fresh tr with
  | some (Res.held _) => false
  | some _ => true
  | none => false

/-- The flags `main` requires. -/
def required_flags : List (List Nat) :=
  [lit "--host", lit "--cafile", lit "--cert", lit "--key"]

/-- The flags `main` recognizes. -/
def recognized_flags : List (List Nat) :=
  [lit "--host", lit "--port", lit "--cafile", lit "--cert", lit "--key", lit "--canif"]

/-- The tokens in flag position: every flag takes one value, so these are the
first token after the program name and every second token from there. -/
def flag_tokens : List (List Nat) → List (List Nat)
  | [] => []
  | [t] => [t]
  | t :: _ :: rest => t :: flag_tokens rest

/-- Whether flag `f` is given: it stands in flag position and a value follows. -/
def given (f : List Nat) : List (List Nat) → Bool
  | t :: _ :: rest => decide (t = f) || given f rest
  | _ => false

/-- A run used as a concrete instance: every call succeeds and the signal is
delivered during the second sleep. -/
def example_env : Env :=
  { socket_ret := 3, ioctl_ret := 0, ifr_ifindex := 2, bind_ret := 0, new_ok := true,
    tls_set_ret := 0, connect_ret := 0, pending := fun i => i == 2, atoi := fun _ => 8883 }

/-- The argument vector of that run. -/
def example_argv : List (List Nat) :=
  ["tcu", "--host", "h", "--cafile", "ca", "--cert", "c", "--key", "k"].map lit

/-! ## Lemmas on the C string functions -/

theorem isspace_zero : isspace 0 = false := by decide

theorem tolower_eq_zero (c : Nat) : tolower c = 0 ↔ c = 0 := by
  unfold tolower
  split <;> omega

theorem skip_leading_append (t r : List Nat) :
    skip_leading (t ++ 0 :: r) = (t.takeWhile isspace).length := by
  induction t with
  | nil => simp [skip_leading]
  | cons c cs ih =>
    by_cases hc : isspace c = true
    · have h0 : c ≠ 0 := by
        rintro rfl
        simp [isspace_zero] at hc
      simp [skip_leading, hc, h0, ih]
    · simp [skip_leading, hc]

theorem strlen_append (u r : List Nat) (hu : 0 ∉ u) : strlen (u ++ 0 :: r) = u.length := by
  induction u with
  | nil => simp [strlen]
  | cons c cs ih =>
    simp only [List.mem_cons, not_or] at hu
    have h0 : c ≠ 0 := fun h => hu.1 h.symm
    simp [strlen, h0, ih hu.2]

theorem c_str_append (u r : List Nat) (hu : 0 ∉ u) : c_str (u ++ 0 :: r) = u := by
  induction u with
  | nil => simp [c_str]
  | cons c cs ih =>
    simp only [List.mem_cons, not_or] at hu
    have h0 : c ≠ 0 := fun h => hu.1 h.symm
    have := ih hu.2
    simp only [c_str] at this ⊢
    simp [List.takeWhile_cons, h0, this]

theorem trim_trailing_append (u : List Nat) : ∀ r : List Nat,
    ∃ r2, trim_trailing (u ++ 0 :: r) u.length
      = (u.reverse.dropWhile isspace).reverse ++ 0 :: r2 := by
  induction u using List.reverseRecOn with
  | nil => intro r; exact ⟨r, by simp [trim_trailing]⟩
  | append_singleton v c ih =>
    intro r
    have hget : (v ++ [c] ++ 0 :: r).getD v.length 0 = c := by
      rw [List.append_assoc, List.getD_eq_getElem?_getD, List.getElem?_append_right (le_refl _)]
      simp
    by_cases hc : isspace c = true
    · obtain ⟨r2, h2⟩ := ih (0 :: r)
      refine ⟨r2, ?_⟩
      have hset : (v ++ [c] ++ 0 :: r).set v.length 0 = v ++ 0 :: 0 :: r := by
        simp [List.set_append]
      simp only [List.length_append, List.length_singleton, trim_trailing, hget, hc, if_true,
        hset, h2]
      simp [List.dropWhile_cons, hc]
    · refine ⟨r, ?_⟩
      simp only [List.length_append, List.length_singleton, trim_trailing, hget, hc]
      simp [List.dropWhile_cons, hc]

theorem zero_not_mem_c_str (s : List Nat) : 0 ∉ c_str s := by
  intro h
  have := List.mem_takeWhile_imp h
  simp at this

theorem zero_not_mem_strip (t : List Nat) (ht : 0 ∉ t) : 0 ∉ strip t := by
  intro h
  unfold strip at h
  rw [List.mem_reverse] at h
  have h1 := (List.dropWhile_suffix _).subset h
  rw [List.mem_reverse] at h1
  exact ht ((List.dropWhile_suffix _).subset h1)

theorem trim_append (t r : List Nat) (ht : 0 ∉ t) :
    ∃ r2, trim (some (t ++ 0 :: r)) = some (strip t ++ 0 :: r2) := by
  have hsplit : t = t.takeWhile isspace ++ t.dropWhile isspace :=
    (List.takeWhile_append_dropWhile _ _).symm
  have hu : 0 ∉ t.dropWhile isspace := fun h => ht ((List.dropWhile_suffix _).subset h)
  have hdrop : (t ++ 0 :: r).drop (t.takeWhile isspace).length
      = t.dropWhile isspace ++ 0 :: r := by
    have h2 : t ++ 0 :: r = t.takeWhile isspace ++ (t.dropWhile isspace ++ 0 :: r) := by
      rw [← List.append_assoc, List.takeWhile_append_dropWhile]
    rw [h2, List.drop_left]
  have hs1 : ∃ r1, (if skip_leading (t ++ 0 :: r) ≠ 0 then
        memmove (t ++ 0 :: r) (skip_leading (t ++ 0 :: r))
          (strlen ((t ++ 0 :: r).drop (skip_leading (t ++ 0 :: r))) + 1)
      else t ++ 0 :: r) = t.dropWhile isspace ++ 0 :: r1 := by
    rw [skip_leading_append]
    by_cases hp : (t.takeWhile isspace).length = 0
    · refine ⟨r, ?_⟩
      have hnil : t.takeWhile isspace = [] := List.length_eq_zero.mp hp
      have : t.dropWhile isspace = t := by
        conv_rhs => rw [hsplit, hnil]
        simp
      simp [hp, this]
    · refine ⟨(t ++ 0 :: r).drop ((t.dropWhile isspace).length + 1), ?_⟩
      rw [if_pos hp, hdrop, strlen_append _ _ hu]
      unfold memmove
      rw [hdrop]
      have : (t.dropWhile isspace ++ 0 :: r).take ((t.dropWhile isspace).length + 1)
          = t.dropWhile isspace ++ [0] := by
        rw [List.take_append_eq_append_take]
        simp
      rw [this]
      simp
  obtain ⟨r1, h1⟩ := hs1
  obtain ⟨r2, h2⟩ := trim_trailing_append (t.dropWhile isspace) r1
  refine ⟨r2, ?_⟩
  simp only [trim]
  rw [h1, strlen_append _ _ hu, h2]
  rfl

theorem strcasecmp_eq_zero (w : List Nat) : ∀ (k r : List Nat), 0 ∉ w → 0 ∉ k →
    (strcasecmp (w ++ 0 :: r) (k ++ [0]) = 0 ↔ eq_ignore_case w k = true) := by
  induction w with
  | nil =>
    intro k r _ hk
    cases k with
    | nil =>
      have h0 : tolower 0 = 0 := by decide
      simp [strcasecmp, eq_ignore_case, h0]
    | cons y ys =>
      simp only [List.mem_cons, not_or] at hk
      have hy : tolower y ≠ 0 := fun h => hk.1 ((tolower_eq_zero y).mp h).symm
      have h0 : tolower 0 = 0 := by decide
      simp [strcasecmp, eq_ignore_case, h0, hy, Ne.symm hy]
  | cons x xs ih =>
    intro k r hw hk
    simp only [List.mem_cons, not_or] at hw
    have hx : tolower x ≠ 0 := fun h => hw.1 ((tolower_eq_zero x).mp h).symm
    cases k with
    | nil =>
      have h0 : tolower 0 = 0 := by decide
      simp only [List.cons_append, List.nil_append, strcasecmp, List.headD_cons, h0]
      simp [hx, eq_ignore_case]
    | cons y ys =>
      simp only [List.mem_cons, not_or] at hk
      simp only [List.cons_append, strcasecmp, List.headD_cons, List.tail_cons]
      by_cases hxy : tolower x = tolower y
      · have := ih ys r hw.2 hk.2
        simp only [hxy, ne_eq, not_true_eq_false, if_false]
        rw [if_neg (hxy ▸ hx)]
        show strcasecmp (xs ++ 0 :: r) (ys ++ [0]) = 0 ↔ _
        rw [this]
        simp [eq_ignore_case, hxy]
      · rw [if_pos hxy]
        have : (tolower x : Int) - (tolower y : Int) ≠ 0 := by omega
        simp [this, eq_ignore_case, hxy]

/-- A byte lowers to a given lower-case letter iff it is that letter or its
upper-case form. -/
theorem tolower_eq_iff (c x : Nat) (h1 : 0x61 ≤ c) (h2 : c ≤ 0x7a) :
    tolower x = c ↔ (x = c ∨ x + 0x20 = c) := by
  unfold tolower
  split <;> omega

/-- Being "lock" up to casing, spelled out letter by letter. -/
theorem eq_ignore_case_lock_iff (t : List Nat) :
    eq_ignore_case t (lit "lock") = true ↔
      ∃ a b c d, t = [a, b, c, d] ∧ (a = 0x6c ∨ a = 0x4c) ∧ (b = 0x6f ∨ b = 0x4f) ∧
        (c = 0x63 ∨ c = 0x43) ∧ (d = 0x6b ∨ d = 0x4b) := by
  have hlit : (lit "lock").map tolower = [0x6c, 0x6f, 0x63, 0x6b] := by decide
  simp only [eq_ignore_case, beq_iff_eq, hlit]
  have ha := fun x => tolower_eq_iff 0x6c x (by decide) (by decide)
  have hb := fun x => tolower_eq_iff 0x6f x (by decide) (by decide)
  have hc := fun x => tolower_eq_iff 0x63 x (by decide) (by decide)
  have hd := fun x => tolower_eq_iff 0x6b x (by decide) (by decide)
  constructor
  · intro h
    rcases t with _ | ⟨a, _ | ⟨b, _ | ⟨c, _ | ⟨d, _ | ⟨e, r⟩⟩⟩⟩⟩
    · simp at h
    · simp at h
    · simp at h
    · simp at h
    · simp only [List.map_cons, List.map_nil, List.cons.injEq, and_true] at h
      obtain ⟨e1, e2, e3, e4⟩ := h
      refine ⟨a, b, c, d, rfl, ?_, ?_, ?_, ?_⟩
      · have := (ha a).mp e1; omega
      · have := (hb b).mp e2; omega
      · have := (hc c).mp e3; omega
      · have := (hd d).mp e4; omega
    · simp at h
  · rintro ⟨a, b, c, d, rfl, h1, h2, h3, h4⟩
    simp only [List.map_cons, List.map_nil, List.cons.injEq, and_true]
    exact ⟨(ha a).mpr (by omega), (hb b).mpr (by omega), (hc c).mpr (by omega),
      (hd d).mpr (by omega)⟩

theorem can_send_cmd_globals (g : Globals) (b : Nat) (w : Int) :
    (can_send_cmd g b w).globals = g := by
  unfold can_send_cmd
  by_cases h1 : g.can_sock < 0
  · simp [h1]
  · by_cases h2 : w = sizeof_can_frame <;> simp [h1, h2]

/-- The trace of `on_message` on a message with a non-null payload of positive
length, when `strndup` returns a buffer: determined by the stripped text of
the payload up to its first zero byte. -/
theorem on_message_trace (g : Globals) (topic payload : List Nat) (n w : Int) (hn : 0 < n) :
    (on_message g (some ⟨topic, some payload, n⟩) true w).trace =
      Event.stdout (Msg.received topic (strip (c_str (payload.take n.toNat)))) ::
        (if eq_ignore_case (strip (c_str (payload.take n.toNat))) (lit "lock") = true then
          (can_send_cmd g CMD_LOCK w).trace ++
            [Event.stdout (if (can_send_cmd g CMD_LOCK w).ret = 0
              then Msg.sent_lock else Msg.failed_lock)]
        else if eq_ignore_case (strip (c_str (payload.take n.toNat))) (lit "unlock") = true then
          (can_send_cmd g CMD_UNLOCK w).trace ++
            [Event.stdout (if (can_send_cmd g CMD_UNLOCK w).ret = 0
              then Msg.sent_unlock else Msg.failed_unlock)]
        else [Event.stderr (Msg.unknown_payload (strip (c_str (payload.take n.toNat))))]) := by
  have hz := zero_not_mem_c_str (payload.take n.toNat)
  obtain ⟨r2, h2⟩ := trim_append (c_str (payload.take n.toNat)) [] hz
  have hs := zero_not_mem_strip _ hz
  have hl := strcasecmp_eq_zero (strip (c_str (payload.take n.toNat))) (lit "lock") r2 hs
    (by decide)
  have hu := strcasecmp_eq_zero (strip (c_str (payload.take n.toNat))) (lit "unlock") r2 hs
    (by decide)
  simp only [on_message, not_le.mpr hn, if_false, if_true, strndup, h2,
    c_str_append _ _ hs, Option.isNone_some, Bool.false_eq_true]
  by_cases h1 : eq_ignore_case (strip (c_str (payload.take n.toNat))) (lit "lock") = true
  · rw [if_pos (hl.mpr h1), if_pos h1]
    rfl
  · rw [if_neg (fun h => h1 (hl.mp h)), if_neg h1]
    by_cases h3 : eq_ignore_case (strip (c_str (payload.take n.toNat))) (lit "unlock") = true
    · rw [if_pos (hu.mpr h3), if_pos h3]
      rfl
    · rw [if_neg (fun h => h3 (hu.mp h)), if_neg h3]

/-! ## `on_message`: decoding -/

theorem c_str_of_no_zero (t : List Nat) (hz : 0 ∉ t) : c_str t = t := by
  unfold c_str
  rw [List.takeWhile_eq_self_iff]
  intro c hc
  have : c ≠ 0 := fun h => hz (h ▸ hc)
  simpa using this

theorem send_attempts_can_send_cmd (g : Globals) (b : Nat) (w : Int) (tl : List Event)
    (htl : send_attempts tl = []) :
    send_attempts ((can_send_cmd g b w).trace ++ tl) = [b] := by
  unfold can_send_cmd
  by_cases h1 : g.can_sock < 0
  · simpa [h1, send_attempts] using htl
  · by_cases h2 : w = sizeof_can_frame <;> simpa [h1, h2, send_attempts] using htl

theorem strip_eq_nil_of_all_space (t : List Nat) (h : ∀ c ∈ t, isspace c = true) :
    strip t = [] := by
  have : t.dropWhile isspace = [] := by
    rw [List.dropWhile_eq_nil_iff]
    exact h
  simp [strip, this]

/-- The three ways `on_message` ends once it has a buffer, in terms of send
attempts. -/
theorem on_message_cases (g : Globals) (topic p : List Nat) (n w : Int) (hp : 0 < n) :
      (eq_ignore_case (strip (c_str (p.take n.toNat))) (lit "lock") = true →
        send_attempts (on_message g (some ⟨topic, some p, n⟩) true w).trace = [0x30]) ∧
      (eq_ignore_case (strip (c_str (p.take n.toNat))) (lit "lock") = false →
        eq_ignore_case (strip (c_str (p.take n.toNat))) (lit "unlock") = true →
        send_attempts (on_message g (some ⟨topic, some p, n⟩) true w).trace = [0x31]) ∧
      (eq_ignore_case (strip (c_str (p.take n.toNat))) (lit "lock") = false →
        eq_ignore_case (strip (c_str (p.take n.toNat))) (lit "unlock") = false →
        send_attempts (on_message g (some ⟨topic, some p, n⟩) true w).trace = [] ∧
        Event.stderr (Msg.unknown_payload (strip (c_str (p.take n.toNat)))) ∈
          (on_message g (some ⟨topic, some p, n⟩) true w).trace) := by
  rw [on_message_trace g topic p n w hp]
  refine ⟨fun h => ?_, fun h1 h2 => ?_, fun h1 h2 => ?_⟩
  · rw [if_pos h]
    have := send_attempts_can_send_cmd g CMD_LOCK w
      [Event.stdout (if (can_send_cmd g CMD_LOCK w).ret = 0
        then Msg.sent_lock else Msg.failed_lock)] (by simp [send_attempts])
    simpa [send_attempts, CMD_LOCK] using this
  · rw [if_neg (by simp [h1]), if_pos h2]
    have := send_attempts_can_send_cmd g CMD_UNLOCK w
      [Event.stdout (if (can_send_cmd g CMD_UNLOCK w).ret = 0
        then Msg.sent_unlock else Msg.failed_unlock)] (by simp [send_attempts])
    simpa [send_attempts, CMD_UNLOCK] using this
  · rw [if_neg (by simp [h1]), if_neg (by simp [h2])]
    simp [send_attempts]

/-- Decoding once `strndup` has returned a buffer: for a non-empty payload `t`
without zero byte, one send attempt with byte `0x30` iff `t` stripped is "lock"
up to casing, one with byte `0x31` iff it is "unlock" up to casing, otherwise
no send attempt and the unknown-payload warning. -/
theorem on_message_decodes_with_buffer (g : Globals) (topic t : List Nat) (w : Int)
    (hne : t ≠ []) (hz : 0 ∉ t) :
    (send_attempts (on_message g (some ⟨topic, some t, t.length⟩) true w).trace = [0x30]
      ↔ eq_ignore_case (strip t) (lit "lock") = true) ∧
    (send_attempts (on_message g (some ⟨topic, some t, t.length⟩) true w).trace = [0x31]
      ↔ eq_ignore_case (strip t) (lit "unlock") = true) ∧
    (eq_ignore_case (strip t) (lit "lock") = false →
      eq_ignore_case (strip t) (lit "unlock") = false →
      send_attempts (on_message g (some ⟨topic, some t, t.length⟩) true w).trace = [] ∧
      Event.stderr (Msg.unknown_payload (strip t)) ∈
        (on_message g (some ⟨topic, some t, t.length⟩) true w).trace) ∧
    ((∀ c ∈ t, isspace c = true) →
      send_attempts (on_message g (some ⟨topic, some t, t.length⟩) true w).trace = [] ∧
      Event.stderr (Msg.unknown_payload []) ∈
        (on_message g (some ⟨topic, some t, t.length⟩) true w).trace) ∧
    send_attempts (on_message g (some ⟨topic, some (lit "lo ck"), 5⟩) true w).trace = [] ∧
    Event.stderr (Msg.unknown_payload (lit "lo ck")) ∈
      (on_message g (some ⟨topic, some (lit "lo ck"), 5⟩) true w).trace ∧
    send_attempts (on_message g (some ⟨topic, some (lit "  LOCK\n"), 7⟩) true w).trace = [0x30] := by
  have hn : (0 : Int) < (t.length : Int) := by
    have := List.length_pos.mpr hne
    omega
  have kt := on_message_cases g topic t t.length w hn
  simp only [Int.toNat_ofNat, List.take_length, c_str_of_no_zero t hz] at kt
  obtain ⟨k1, k2, k3⟩ := kt
  have hexcl : eq_ignore_case (strip t) (lit "lock") = true →
      eq_ignore_case (strip t) (lit "unlock") = true → False := by
    intro a b
    simp only [eq_ignore_case, beq_iff_eq] at a b
    rw [a] at b
    exact absurd b (by decide)
  refine ⟨⟨fun h => ?_, k1⟩, ⟨fun h => ?_, fun h => ?_⟩, k3, fun hall => ?_, ?_, ?_, ?_⟩
  · by_contra hl
    have hl : eq_ignore_case (strip t) (lit "lock") = false := by simpa using hl
    cases hu : eq_ignore_case (strip t) (lit "unlock") with
    | true => rw [k2 hl hu] at h; exact absurd h (by decide)
    | false => rw [(k3 hl hu).1] at h; exact absurd h (by decide)
  · by_contra hu
    have hu : eq_ignore_case (strip t) (lit "unlock") = false := by simpa using hu
    cases hl : eq_ignore_case (strip t) (lit "lock") with
    | true => rw [k1 hl] at h; exact absurd h (by decide)
    | false => rw [(k3 hl hu).1] at h; exact absurd h (by decide)
  · cases hl : eq_ignore_case (strip t) (lit "lock") with
    | true => exact absurd h (fun h => hexcl hl h)
    | false => exact k2 hl h
  · have hs := strip_eq_nil_of_all_space t hall
    have := k3 (by rw [hs]; decide) (by rw [hs]; decide)
    rw [hs] at this
    exact this
  · exact ((on_message_cases g topic (lit "lo ck") 5 w (by decide)).2.2 (by decide) (by decide)).1
  · exact ((on_message_cases g topic (lit "lo ck") 5 w (by decide)).2.2 (by decide) (by decide)).2
  · exact (on_message_cases g topic (lit "  LOCK\n") 7 w (by decide)).1 (by decide)

/-! ## `on_message`: what reaches the bus -/

theorem bus_writes_can_send_cmd (g : Globals) (b : Nat) (w : Int) (tl : List Event)
    (htl : bus_writes tl = []) :
    bus_writes ((can_send_cmd g b w).trace ++ tl)
      = if g.can_sock < 0 then [] else [build_frame b] := by
  unfold can_send_cmd
  by_cases h1 : g.can_sock < 0
  · simpa [h1, bus_writes] using htl
  · by_cases h2 : w = sizeof_can_frame <;> simpa [h1, h2, bus_writes] using htl

/-- Without a buffer from `strndup`, `on_message` does nothing. -/
theorem on_message_no_buffer (g : Globals) (msg : Option mosquitto_message) (w : Int) :
    on_message g msg false w = { ret := 0, trace := [], globals := g } := by
  unfold on_message
  cases msg with
  | none => rfl
  | some m =>
    obtain ⟨topic, payload, n⟩ := m
    cases payload with
    | none => rfl
    | some payload =>
      by_cases hn : n ≤ 0
      · simp [hn]
      · simp [hn, trim]

/-- C1 (as stated, refuted). When `strndup` returns no buffer, the payload
"lock" gives no send attempt although it is "lock" after stripping, and the
payload "open" gives no warning: `on_message` returns with an empty trace. -/
theorem on_message_alloc_failure_counterexample :
    lit "lock" ≠ [] ∧ 0 ∉ lit "lock" ∧
    eq_ignore_case (strip (lit "lock")) (lit "lock") = true ∧
    send_attempts (on_message { Globals.init with can_sock := 3 }
      (some ⟨lit "status/door", some (lit "lock"), 4⟩) false 16).trace = [] ∧
    lit "open" ≠ [] ∧ 0 ∉ lit "open" ∧
    eq_ignore_case (strip (lit "open")) (lit "lock") = false ∧
    eq_ignore_case (strip (lit "open")) (lit "unlock") = false ∧
    (on_message { Globals.init with can_sock := 3 }
      (some ⟨lit "status/door", some (lit "open"), 4⟩) false 16).trace = [] := by
  decide

/-- C1 (amended). For a non-empty payload `t` without zero byte and either
answer of `strndup`: `on_message` makes exactly one send attempt with byte
`0x30` iff `strndup` returned a buffer and `t` stripped of leading and
trailing whitespace is "lock" in some casing; exactly one with byte `0x31`
iff `strndup` returned a buffer and it is "unlock" in some casing; when
`strndup` returned a buffer and it is neither, no send attempt is made and
the unknown-payload warning is printed; when `strndup` returned no buffer,
`on_message` returns with no event at all.  With a buffer, a whitespace-only
payload and "lo ck" are unrecognized and "  LOCK\n" gives LOCK. -/
theorem on_message_decodes_text (g : Globals) (topic t : List Nat) (alloc_ok : Bool)
    (w : Int) (hne : t ≠ []) (hz : 0 ∉ t) :
    (send_attempts (on_message g (some ⟨topic, some t, t.length⟩) alloc_ok w).trace = [0x30]
      ↔ alloc_ok = true ∧ eq_ignore_case (strip t) (lit "lock") = true) ∧
    (send_attempts (on_message g (some ⟨topic, some t, t.length⟩) alloc_ok w).trace = [0x31]
      ↔ alloc_ok = true ∧ eq_ignore_case (strip t) (lit "unlock") = true) ∧
    (alloc_ok = true →
      eq_ignore_case (strip t) (lit "lock") = false →
      eq_ignore_case (strip t) (lit "unlock") = false →
      send_attempts (on_message g (some ⟨topic, some t, t.length⟩) alloc_ok w).trace = [] ∧
      Event.stderr (Msg.unknown_payload (strip t)) ∈
        (on_message g (some ⟨topic, some t, t.length⟩) alloc_ok w).trace) ∧
    (alloc_ok = false →
      on_message g (some ⟨topic, some t, t.length⟩) alloc_ok w
        = { ret := 0, trace := [], globals := g }) ∧
    (alloc_ok = true → (∀ c ∈ t, isspace c = true) →
      send_attempts (on_message g (some ⟨topic, some t, t.length⟩) alloc_ok w).trace = [] ∧
      Event.stderr (Msg.unknown_payload []) ∈
        (on_message g (some ⟨topic, some t, t.length⟩) alloc_ok w).trace) ∧
    send_attempts (on_message g (some ⟨topic, some (lit "lo ck"), 5⟩) true w).trace = [] ∧
    Event.stderr (Msg.unknown_payload (lit "lo ck")) ∈
      (on_message g (some ⟨topic, some (lit "lo ck"), 5⟩) true w).trace ∧
    send_attempts (on_message g (some ⟨topic, some (lit "  LOCK\n"), 7⟩) true w).trace
      = [0x30] := by
  obtain ⟨k1, k2, k3, k4, k5, k6, k7⟩ := on_message_decodes_with_buffer g topic t w hne hz
  cases alloc_ok with
  | true =>
    refine ⟨?_, ?_, fun _ => k3, ?_, fun _ => k4, k5, k6, k7⟩
    · rw [k1]; simp
    · rw [k2]; simp
    · intro h; exact absurd h (by decide)
  | false =>
    have hnil := on_message_no_buffer g (some ⟨topic, some t, t.length⟩) w
    refine ⟨?_, ?_, ?_, fun _ => hnil, ?_, k5, k6, k7⟩
    · rw [hnil]; simp [send_attempts]
    · rw [hnil]; simp [send_attempts]
    · intro h; exact absurd h (by decide)
    · intro h; exact absurd h (by decide)

/-- Witness for C1 (amended) at the payload "Unlock " with a buffer. -/
theorem on_message_decodes_text_witness :
    lit "Unlock " ≠ [] ∧ 0 ∉ lit "Unlock " ∧
    send_attempts (on_message Globals.init
      (some ⟨lit "status/door", some (lit "Unlock "), (lit "Unlock ").length⟩) true 16).trace
      = [0x31] :=
  ⟨by decide, by decide,
   (on_message_decodes_text Globals.init (lit "status/door") (lit "Unlock ") true 16
      (by decide) (by decide)).2.1.mpr ⟨rfl, by decide⟩⟩

/-- The frames `on_message` writes, once it has a buffer. -/
theorem on_message_bus_writes (g : Globals) (topic p : List Nat) (n w : Int) (hp : 0 < n) :
    bus_writes (on_message g (some ⟨topic, some p, n⟩) true w).trace =
      if g.can_sock < 0 then []
      else if eq_ignore_case (strip (c_str (p.take n.toNat))) (lit "lock") = true then
        [build_frame 0x30]
      else if eq_ignore_case (strip (c_str (p.take n.toNat))) (lit "unlock") = true then
        [build_frame 0x31]
      else [] := by
  rw [on_message_trace g topic p n w hp]
  by_cases h1 : eq_ignore_case (strip (c_str (p.take n.toNat))) (lit "lock") = true
  · rw [if_pos h1, if_pos h1]
    have := bus_writes_can_send_cmd g CMD_LOCK w
      [Event.stdout (if (can_send_cmd g CMD_LOCK w).ret = 0
        then Msg.sent_lock else Msg.failed_lock)] (by simp [bus_writes])
    simpa [bus_writes, CMD_LOCK] using this
  · rw [if_neg h1, if_neg h1]
    by_cases h2 : eq_ignore_case (strip (c_str (p.take n.toNat))) (lit "unlock") = true
    · rw [if_pos h2, if_pos h2]
      have := bus_writes_can_send_cmd g CMD_UNLOCK w
        [Event.stdout (if (can_send_cmd g CMD_UNLOCK w).ret = 0
          then Msg.sent_unlock else Msg.failed_unlock)] (by simp [bus_writes])
      simpa [bus_writes, CMD_UNLOCK] using this
    · rw [if_neg h2, if_neg h2]
      simp [bus_writes]

/-- C2 (as stated, refuted). The payload `lock\0xyz`, eight bytes, is not
"lock" or "unlock" after stripping whitespace from all eight bytes, yet with
the bus open `on_message` writes the LOCK frame and prints no warning. -/
theorem on_message_zero_byte_counterexample :
    eq_ignore_case (strip (lit "lock" ++ 0 :: lit "xyz")) (lit "lock") = false ∧
    eq_ignore_case (strip (lit "lock" ++ 0 :: lit "xyz")) (lit "unlock") = false ∧
    bus_writes (on_message { Globals.init with can_sock := 3 }
      (some ⟨lit "status/door", some (lit "lock" ++ 0 :: lit "xyz"), 8⟩) true 16).trace
      = [build_frame 0x30] ∧
    (∀ e ∈ (on_message { Globals.init with can_sock := 3 }
      (some ⟨lit "status/door", some (lit "lock" ++ 0 :: lit "xyz"), 8⟩) true 16).trace,
      ∀ buf, e ≠ Event.stderr (Msg.unknown_payload buf)) := by
  refine ⟨by decide, by decide, by decide, ?_⟩
  intro e he buf
  have : (on_message { Globals.init with can_sock := 3 }
      (some ⟨lit "status/door", some (lit "lock" ++ 0 :: lit "xyz"), 8⟩) true 16).trace
      = [Event.stdout (Msg.received (lit "status/door") (lit "lock")), Event.can_send_cmd 0x30,
         Event.write 3 (build_frame 0x30), Event.stdout Msg.sent_lock] := by decide
  rw [this] at he
  simp only [List.mem_cons, List.mem_singleton, List.not_mem_nil, or_false] at he
  rcases he with h | h | h | h <;> rw [h] <;> simp

/-- C2 (amended). For a non-empty payload of `payloadlen` bytes, `on_message`
writes a bus frame only if the bytes before the payload's first zero byte (all
of them when there is none), stripped of leading and trailing whitespace, are
"lock" or "unlock" up to casing; any frame written is the LOCK or the UNLOCK
frame; and when they are neither (and `strndup` gave a buffer) nothing is
written or attempted and the unknown-payload warning is printed. -/
theorem on_message_validates_c_string (g : Globals) (topic payload : List Nat)
    (alloc_ok : Bool) (w : Int) (hne : payload ≠ []) :
    (bus_writes (on_message g (some ⟨topic, some payload, payload.length⟩) alloc_ok w).trace ≠ [] →
      eq_ignore_case (strip (c_str payload)) (lit "lock") = true ∨
      eq_ignore_case (strip (c_str payload)) (lit "unlock") = true) ∧
    (∀ f ∈ bus_writes (on_message g (some ⟨topic, some payload, payload.length⟩) alloc_ok w).trace,
      f = build_frame 0x30 ∨ f = build_frame 0x31) ∧
    (alloc_ok = true →
      eq_ignore_case (strip (c_str payload)) (lit "lock") = false →
      eq_ignore_case (strip (c_str payload)) (lit "unlock") = false →
      bus_writes (on_message g (some ⟨topic, some payload, payload.length⟩) true w).trace = [] ∧
      send_attempts (on_message g (some ⟨topic, some payload, payload.length⟩) true w).trace = [] ∧
      Event.stderr (Msg.unknown_payload (strip (c_str payload))) ∈
        (on_message g (some ⟨topic, some payload, payload.length⟩) true w).trace) := by
  have hn : (0 : Int) < (payload.length : Int) := by
    have := List.length_pos.mpr hne
    omega
  have hw := on_message_bus_writes g topic payload payload.length w hn
  have hc := on_message_cases g topic payload payload.length w hn
  simp only [Int.toNat_ofNat, List.take_length] at hw hc
  refine ⟨?_, ?_, ?_⟩
  · cases alloc_ok with
    | false => simp [on_message_no_buffer, bus_writes]
    | true =>
      rw [hw]
      intro h
      by_contra hcon
      simp only [not_or] at hcon
      simp [hcon.1, hcon.2] at h
  · cases alloc_ok with
    | false => simp [on_message_no_buffer, bus_writes]
    | true =>
      rw [hw]
      intro f hf
      split_ifs at hf <;> simp_all
  · intro _ h1 h2
    refine ⟨?_, hc.2.2 h1 h2⟩
    rw [hw]
    simp [h1, h2]

/-- Witness for C2 (amended) at the payload `lock\0xyz`. -/
theorem on_message_validates_c_string_witness :
    lit "lock" ++ 0 :: lit "xyz" ≠ [] ∧
    ∀ f ∈ bus_writes (on_message { Globals.init with can_sock := 3 }
        (some ⟨[], some (lit "lock" ++ 0 :: lit "xyz"),
          (lit "lock" ++ 0 :: lit "xyz").length⟩) true 16).trace,
      f = build_frame 0x30 ∨ f = build_frame 0x31 :=
  ⟨by decide,
   (on_message_validates_c_string { Globals.init with can_sock := 3 } []
      (lit "lock" ++ 0 :: lit "xyz") true 16 (by decide)).2.1⟩

/-! ## `can_send_cmd` and the early returns of `on_message` -/

/-- The early returns of `on_message`. -/
theorem on_message_ignored (g : Globals) (msg : Option mosquitto_message) (alloc_ok : Bool)
    (w : Int)
    (h : msg = none ∨ ∃ m, msg = some m ∧ (m.payload = none ∨ m.payloadlen ≤ 0)) :
    on_message g msg alloc_ok w = { ret := 0, trace := [], globals := g } := by
  rcases h with rfl | ⟨m, rfl, hm⟩
  · rfl
  · obtain ⟨topic, payload, n⟩ := m
    cases payload with
    | none => rfl
    | some payload =>
      have hn : n ≤ 0 := by simpa using hm
      simp [on_message, hn]

/-- Every message is either ignored or has a non-null payload of positive
length. -/
theorem message_cases (msg : Option mosquitto_message) :
    (msg = none ∨ ∃ m, msg = some m ∧ (m.payload = none ∨ m.payloadlen ≤ 0)) ∨
    ∃ topic payload n, 0 < n ∧ msg = some ⟨topic, some payload, n⟩ := by
  cases msg with
  | none => exact Or.inl (Or.inl rfl)
  | some m =>
    obtain ⟨topic, payload, n⟩ := m
    cases payload with
    | none => exact Or.inl (Or.inr ⟨_, rfl, Or.inl rfl⟩)
    | some payload =>
      by_cases hn : n ≤ 0
      · exact Or.inl (Or.inr ⟨_, rfl, Or.inr hn⟩)
      · exact Or.inr ⟨topic, payload, n, not_le.mp hn, rfl⟩

theorem on_message_globals (g : Globals) (msg : Option mosquitto_message) (alloc_ok : Bool)
    (w : Int) : (on_message g msg alloc_ok w).globals = g := by
  rcases message_cases msg with h | ⟨topic, payload, n, hn, rfl⟩
  · rw [on_message_ignored g msg alloc_ok w h]
  · cases alloc_ok with
    | false => rw [on_message_no_buffer]
    | true =>
      have hz := zero_not_mem_c_str (payload.take n.toNat)
      obtain ⟨r2, h2⟩ := trim_append (c_str (payload.take n.toNat)) [] hz
      simp only [on_message, not_le.mpr hn, if_false, if_true, strndup, h2,
        Option.isNone_some, Bool.false_eq_true]
      split_ifs <;> simp [can_send_cmd_globals]

theorem on_message_send_attempts_mem (g : Globals) (msg : Option mosquitto_message)
    (alloc_ok : Bool) (w : Int) :
    ∀ c ∈ send_attempts (on_message g msg alloc_ok w).trace, c = 0x30 ∨ c = 0x31 := by
  rcases message_cases msg with h | ⟨topic, payload, n, hn, rfl⟩
  · rw [on_message_ignored g msg alloc_ok w h]
    simp [send_attempts]
  · cases alloc_ok with
    | false => simp [on_message_no_buffer, send_attempts]
    | true =>
      obtain ⟨k1, k2, k3⟩ := on_message_cases g topic payload n w hn
      cases h1 : eq_ignore_case (strip (c_str (payload.take n.toNat))) (lit "lock") with
      | true => rw [k1 h1]; simp
      | false =>
        cases h2 : eq_ignore_case (strip (c_str (payload.take n.toNat))) (lit "unlock") with
        | true => rw [k2 h1 h2]; simp
        | false => rw [(k3 h1 h2).1]; simp

/-- C3. With the bus handle open, `can_send_cmd(b)` performs exactly one
`write`, on the bus handle, of a frame with identifier `0x200` (within the 11
standard bits, no EFF/RTR/ERR flag), length 1, first data byte `b` and seven
zero data bytes.  `on_message` only ever passes `0x30` or `0x31`: `0x30` for
a payload that decodes to "lock", `0x31` for one that decodes to "unlock";
the two bytes and the two frames differ. -/
theorem can_send_cmd_frame (g : Globals) (b : Nat) (w : Int)
    (hopen : 0 ≤ g.can_sock) (hb : b < 256) :
    (∃ f : can_frame,
      bus_writes (can_send_cmd g b w).trace = [f] ∧
      Event.write g.can_sock f ∈ (can_send_cmd g b w).trace ∧
      f.can_id = 0x200 ∧
      f.can_id &&& CAN_SFF_MASK = f.can_id ∧
      f.can_id &&& (CAN_EFF_FLAG ||| CAN_RTR_FLAG ||| CAN_ERR_FLAG) = 0 ∧
      f.can_dlc = 1 ∧
      f.data = [b, 0, 0, 0, 0, 0, 0, 0]) ∧
    (∀ (msg : Option mosquitto_message) (alloc_ok : Bool) (w2 : Int),
      ∀ c ∈ send_attempts (on_message g msg alloc_ok w2).trace, c = 0x30 ∨ c = 0x31) ∧
    (∀ (topic p : List Nat) (n w2 : Int), 0 < n →
      eq_ignore_case (strip (c_str (p.take n.toNat))) (lit "lock") = true →
      send_attempts (on_message g (some ⟨topic, some p, n⟩) true w2).trace = [0x30]) ∧
    (∀ (topic p : List Nat) (n w2 : Int), 0 < n →
      eq_ignore_case (strip (c_str (p.take n.toNat))) (lit "unlock") = true →
      send_attempts (on_message g (some ⟨topic, some p, n⟩) true w2).trace = [0x31]) ∧
    CMD_LOCK = 0x30 ∧ CMD_UNLOCK = 0x31 ∧ CMD_LOCK ≠ CMD_UNLOCK ∧
    build_frame CMD_LOCK ≠ build_frame CMD_UNLOCK := by
  have hnot : ¬ g.can_sock < 0 := not_lt.mpr hopen
  have hsff : CAN_ID_CMD &&& CAN_SFF_MASK = CAN_ID_CMD := by decide
  have hflags : CAN_ID_CMD &&& (CAN_EFF_FLAG ||| CAN_RTR_FLAG ||| CAN_ERR_FLAG) = 0 := by decide
  refine ⟨⟨build_frame b, ?_, ?_, rfl, hsff, hflags, rfl, ?_⟩,
    on_message_send_attempts_mem g, ?_, ?_, rfl, rfl, by decide, by decide⟩
  · have := bus_writes_can_send_cmd g b w [] rfl
    simpa [hnot] using this
  · unfold can_send_cmd
    by_cases h2 : w = sizeof_can_frame <;> simp [hnot, h2]
  · simp [build_frame, can_frame.zero, Nat.mod_eq_of_lt hb]
  · intro topic p n w2 hn h
    exact (on_message_cases g topic p n w2 hn).1 h
  · intro topic p n w2 hn h
    have hl : eq_ignore_case (strip (c_str (p.take n.toNat))) (lit "lock") = false := by
      cases hl : eq_ignore_case (strip (c_str (p.take n.toNat))) (lit "lock") with
      | false => rfl
      | true =>
        simp only [eq_ignore_case, beq_iff_eq] at h hl
        rw [hl] at h
        exact absurd h (by decide)
    exact (on_message_cases g topic p n w2 hn).2.1 hl h

/-- Witness for C3 at `can_sock = 3`, byte `0x31`. -/
theorem can_send_cmd_frame_witness :
    (0 : Int) ≤ 3 ∧ 0x31 < 256 ∧
    ∃ f : can_frame,
      bus_writes (can_send_cmd { Globals.init with can_sock := 3 } 0x31 16).trace = [f] ∧
      f.can_id = 0x200 ∧ f.can_dlc = 1 ∧ f.data = [0x31, 0, 0, 0, 0, 0, 0, 0] := by
  obtain ⟨⟨f, h1, _, h3, _, _, h6, h7⟩, _⟩ :=
    can_send_cmd_frame { Globals.init with can_sock := 3 } 0x31 16 (by decide) (by decide)
  exact ⟨by decide, by decide, f, h1, h3, h6, h7⟩

/-- Function `can_send_cmd` makes at most one `write`. -/
theorem bus_writes_length_le (g : Globals) (b : Nat) (w : Int) :
    (bus_writes (can_send_cmd g b w).trace).length ≤ 1 := by
  have := bus_writes_can_send_cmd g b w [] rfl
  rw [List.append_nil] at this
  rw [this]
  split <;> simp

/-- C4. `can_send_cmd` returns `-1` iff no bus handle is open (`can_sock < 0`,
and then no `write` is made) or the `write` returns something other than the
frame size; in every other case it returns `0`.  It makes at most one
`write`. -/
theorem can_send_cmd_result (g : Globals) (b : Nat) (w : Int) :
    ((can_send_cmd g b w).ret = -1 ↔ (g.can_sock < 0 ∨ w ≠ sizeof_can_frame)) ∧
    (g.can_sock < 0 → bus_writes (can_send_cmd g b w).trace = []) ∧
    (¬ (g.can_sock < 0 ∨ w ≠ sizeof_can_frame) → (can_send_cmd g b w).ret = 0) ∧
    (bus_writes (can_send_cmd g b w).trace).length ≤ 1 ∧
    sizeof_can_frame = 16 := by
  refine ⟨?_, ?_, ?_, bus_writes_length_le g b w, rfl⟩
  · unfold can_send_cmd
    by_cases h1 : g.can_sock < 0
    · simp [h1]
    · by_cases h2 : w = sizeof_can_frame <;> simp [h1, h2]
  · intro h1
    simp [can_send_cmd, h1, bus_writes]
  · intro h
    simp only [not_or, not_not] at h
    simp [can_send_cmd, h.1, h.2]

/-- Witness for C4: without a bus handle the call fails and writes nothing. -/
theorem can_send_cmd_result_witness :
    (can_send_cmd Globals.init 0x30 16).ret = -1 ∧
    bus_writes (can_send_cmd Globals.init 0x30 16).trace = [] :=
  ⟨(can_send_cmd_result Globals.init 0x30 16).1.mpr (Or.inl (by decide)),
   (can_send_cmd_result Globals.init 0x30 16).2.1 (by decide)⟩

/-- C5. A null message, a null payload or a payload length that is zero or
negative makes `on_message` return at once: no event at all (no log line, no
warning, no send attempt, no write) and the globals untouched, whatever the
payload bytes, the allocator or the bus would have done. -/
theorem on_message_ignores_empty (g : Globals) (msg : Option mosquitto_message)
    (alloc_ok : Bool) (w : Int)
    (h : msg = none ∨ ∃ m, msg = some m ∧ (m.payload = none ∨ m.payloadlen ≤ 0)) :
    (on_message g msg alloc_ok w).trace = [] ∧
    (on_message g msg alloc_ok w).globals = g ∧
    send_attempts (on_message g msg alloc_ok w).trace = [] ∧
    bus_writes (on_message g msg alloc_ok w).trace = [] ∧
    (∀ buf, Event.stderr (Msg.unknown_payload buf) ∉ (on_message g msg alloc_ok w).trace) := by
  rw [on_message_ignored g msg alloc_ok w h]
  simp [send_attempts, bus_writes]

/-- Witness for C5 at the empty payload with length zero. -/
theorem on_message_ignores_empty_witness :
    (on_message Globals.init (some ⟨lit "status/door", some [], 0⟩) true 16).trace = [] :=
  (on_message_ignores_empty Globals.init (some ⟨lit "status/door", some [], 0⟩) true 16
    (Or.inr ⟨_, rfl, Or.inr (le_refl 0)⟩)).1

/-! ## `on_connect`; repeatability -/

/-- C8 (as stated, refuted). With `rc = 0` and a failing subscribe (return
value 1), `on_connect` prints the connection line and issues the subscribe,
and reports no error. -/
theorem on_connect_subscribe_failure_counterexample :
    (on_connect Globals.init 0 1).trace
      = [Event.stdout (Msg.connected "status/door"), Event.subscribe "status/door" 1] ∧
    (∀ e ∈ (on_connect Globals.init 0 1).trace, e.is_error_report = false) ∧
    (on_connect Globals.init 0 1).trace = (on_connect Globals.init 0 MOSQ_ERR_SUCCESS).trace := by
  decide

/-- C8 (amended). Invoked with `rc = 0`, `on_connect` prints the connection
line and issues one subscribe request for "status/door" at QoS 1; the value
the request returns is not examined: whether it succeeds or fails nothing
else is printed, no error is reported, the globals are unchanged and
`on_connect` returns normally. -/
theorem on_connect_subscribes (g : Globals) (subscribe_ret : Int) :
    on_connect g 0 subscribe_ret =
      { ret := 0,
        trace := [Event.stdout (Msg.connected "status/door"), Event.subscribe "status/door" 1],
        globals := g } ∧
    (∀ e ∈ (on_connect g 0 subscribe_ret).trace, e.is_error_report = false) ∧
    TOPIC = "status/door" := by
  refine ⟨rfl, ?_, rfl⟩
  intro e he
  have : (on_connect g 0 subscribe_ret).trace
      = [Event.stdout (Msg.connected "status/door"), Event.subscribe "status/door" 1] := rfl
  rw [this] at he
  simp only [List.mem_cons, List.mem_singleton, List.not_mem_nil, or_false] at he
  rcases he with h | h <;> rw [h] <;> rfl

/-- Witness for C8 (amended): a subscribe that fails with value 14. -/
theorem on_connect_subscribes_witness :
    (on_connect Globals.init 0 14).trace
      = [Event.stdout (Msg.connected "status/door"), Event.subscribe "status/door" 1] :=
  congrArg Outcome.trace (on_connect_subscribes Globals.init 14).1

theorem decodings_can_send_cmd (g : Globals) (b : Nat) (w : Int) (tl : List Event)
    (htl : decodings tl = []) :
    decodings ((can_send_cmd g b w).trace ++ tl) = [some b] := by
  unfold can_send_cmd
  by_cases h1 : g.can_sock < 0
  · simpa [h1, decodings] using htl
  · by_cases h2 : w = sizeof_can_frame <;> simpa [h1, h2, decodings] using htl

/-- The decoding result of `on_message` does not depend on what the bus
does. -/
theorem on_message_decodings (g : Globals) (topic p : List Nat) (n w : Int) (hp : 0 < n) :
    decodings (on_message g (some ⟨topic, some p, n⟩) true w).trace =
      if eq_ignore_case (strip (c_str (p.take n.toNat))) (lit "lock") = true then [some 0x30]
      else if eq_ignore_case (strip (c_str (p.take n.toNat))) (lit "unlock") = true then
        [some 0x31]
      else [none] := by
  rw [on_message_trace g topic p n w hp]
  by_cases h1 : eq_ignore_case (strip (c_str (p.take n.toNat))) (lit "lock") = true
  · rw [if_pos h1, if_pos h1]
    have := decodings_can_send_cmd g CMD_LOCK w
      [Event.stdout (if (can_send_cmd g CMD_LOCK w).ret = 0
        then Msg.sent_lock else Msg.failed_lock)] (by simp [decodings])
    simpa [decodings, CMD_LOCK] using this
  · rw [if_neg h1, if_neg h1]
    by_cases h2 : eq_ignore_case (strip (c_str (p.take n.toNat))) (lit "unlock") = true
    · rw [if_pos h2, if_pos h2]
      have := decodings_can_send_cmd g CMD_UNLOCK w
        [Event.stdout (if (can_send_cmd g CMD_UNLOCK w).ret = 0
          then Msg.sent_unlock else Msg.failed_unlock)] (by simp [decodings])
      simpa [decodings, CMD_UNLOCK] using this
    · rw [if_neg h2, if_neg h2]
      simp [decodings]

/-- C10. Handling the same message twice in a row gives the same decoding
result and the same frames both times, whatever the bus does in between, and
leaves the globals as they were; two successive `can_send_cmd(b)` on an open
handle each write the frame built from zero with identifier `0x200`, length 1
and data `b,0,0,0,0,0,0,0`, also when another byte was sent before, and
leave the globals as they were. -/
theorem decode_and_send_repeatable (g : Globals) (msg : Option mosquitto_message)
    (alloc_ok : Bool) (w1 w2 : Int) (b b0 : Nat) (hopen : 0 ≤ g.can_sock) :
    (on_message g msg alloc_ok w1).globals = g ∧
    (on_message (on_message g msg alloc_ok w1).globals msg alloc_ok w2).globals = g ∧
    decodings (on_message (on_message g msg alloc_ok w1).globals msg alloc_ok w2).trace
      = decodings (on_message g msg alloc_ok w1).trace ∧
    bus_writes (on_message (on_message g msg alloc_ok w1).globals msg alloc_ok w2).trace
      = bus_writes (on_message g msg alloc_ok w1).trace ∧
    on_message (on_message g msg alloc_ok w1).globals msg alloc_ok w1
      = on_message g msg alloc_ok w1 ∧
    (can_send_cmd g b w1).globals = g ∧
    (can_send_cmd (can_send_cmd g b w1).globals b w2).globals = g ∧
    bus_writes (can_send_cmd g b w1).trace
      = [{ can_id := 0x200, can_dlc := 1, pad := 0, res0 := 0, res1 := 0,
           data := [b % 256, 0, 0, 0, 0, 0, 0, 0] }] ∧
    bus_writes (can_send_cmd (can_send_cmd g b w1).globals b w2).trace
      = bus_writes (can_send_cmd g b w1).trace ∧
    bus_writes (can_send_cmd (can_send_cmd g b0 w1).globals b w2).trace
      = bus_writes (can_send_cmd g b w1).trace := by
  have hg := on_message_globals g msg alloc_ok w1
  have hnot : ¬ g.can_sock < 0 := not_lt.mpr hopen
  have hbw : ∀ (c : Nat) (w : Int), bus_writes (can_send_cmd g c w).trace = [build_frame c] := by
    intro c w
    have := bus_writes_can_send_cmd g c w [] rfl
    simpa [hnot] using this
  rw [hg, can_send_cmd_globals g b w1, can_send_cmd_globals g b0 w1]
  refine ⟨rfl, on_message_globals g msg alloc_ok w2, ?_, ?_, rfl, rfl,
    can_send_cmd_globals g b w2, ?_, ?_, ?_⟩
  · rcases message_cases msg with h | ⟨topic, payload, n, hn, rfl⟩
    · rw [on_message_ignored g msg alloc_ok w1 h, on_message_ignored g msg alloc_ok w2 h]
    · cases alloc_ok with
      | false => rw [on_message_no_buffer, on_message_no_buffer]
      | true => rw [on_message_decodings g topic payload n w1 hn,
          on_message_decodings g topic payload n w2 hn]
  · rcases message_cases msg with h | ⟨topic, payload, n, hn, rfl⟩
    · rw [on_message_ignored g msg alloc_ok w1 h, on_message_ignored g msg alloc_ok w2 h]
    · cases alloc_ok with
      | false => rw [on_message_no_buffer, on_message_no_buffer]
      | true => rw [on_message_bus_writes g topic payload n w1 hn,
          on_message_bus_writes g topic payload n w2 hn]
  · rw [hbw]
    simp [build_frame, can_frame.zero, CAN_ID_CMD]
  · rw [hbw, hbw]
  · rw [hbw, hbw]

/-- Witness for C10 at `can_sock = 3`, the payload "lock", a bus that accepts
the first frame and rejects the second. -/
theorem decode_and_send_repeatable_witness :
    (0 : Int) ≤ 3 ∧
    decodings (on_message (on_message { Globals.init with can_sock := 3 }
        (some ⟨[], some (lit "lock"), 4⟩) true 16).globals
        (some ⟨[], some (lit "lock"), 4⟩) true (-1)).trace
      = decodings (on_message { Globals.init with can_sock := 3 }
        (some ⟨[], some (lit "lock"), 4⟩) true 16).trace :=
  ⟨by decide,
   (decode_and_send_repeatable { Globals.init with can_sock := 3 }
      (some ⟨[], some (lit "lock"), 4⟩) true 16 (-1) 0x30 0x31 (by decide)).2.2.1⟩

/-! ## `main`: exit codes -/

/-- Once a signal is pending at some evaluation `k ≥ i`, the wait loop ends
with enough fuel. -/
theorem wait_loop_terminates (pending : Nat → Bool) (k : Nat) (hk : pending k = true) :
    ∀ (fuel i : Nat) (g : Globals), i ≤ k → k - i < fuel →
      ∃ r, wait_loop pending i fuel g = some r := by
  intro fuel
  induction fuel with
  | zero => intro i g _ h; omega
  | succ fuel ih =>
    intro i g hik hf
    simp only [wait_loop]
    split_ifs with hp hr hr
    · have hlt : i < k := by
        rcases Nat.lt_or_ge i k with h | h
        · exact h
        · have : i = k := le_antisymm hik h
          subst this
          simp [handle_sigint] at hr
      obtain ⟨r, hr2⟩ := ih (i + 1) (handle_sigint g) hlt (by omega)
      exact ⟨_, by rw [hr2]; rfl⟩
    · exact ⟨_, rfl⟩
    · have hlt : i < k := by
        rcases Nat.lt_or_ge i k with h | h
        · exact h
        · have : i = k := le_antisymm hik h
          subst this
          exact absurd hk hp
      obtain ⟨r, hr2⟩ := ih (i + 1) g hlt (by omega)
      exact ⟨_, by rw [hr2]; rfl⟩
    · exact ⟨_, rfl⟩

/-- The wait loop only sleeps, and does not touch the bus handle. -/
theorem wait_loop_result (pending : Nat → Bool) :
    ∀ (fuel i : Nat) (g : Globals) (r : List Event × Globals),
      wait_loop pending i fuel g = some r →
      r.2.can_sock = g.can_sock ∧ ∃ n, r.1 = List.replicate n (Event.sleep 1) := by
  intro fuel
  induction fuel with
  | zero => intro i g r h; simp [wait_loop] at h
  | succ fuel ih =>
    intro i g r h
    simp only [wait_loop] at h
    split_ifs at h with hp hr hr
    · cases hrec : wait_loop pending (i + 1) fuel (handle_sigint g) with
      | none => simp [hrec] at h
      | some r2 =>
        obtain ⟨h1, n, h2⟩ := ih _ _ _ hrec
        simp only [hrec, Option.map_some', Option.some.injEq] at h
        subst h
        exact ⟨h1, n + 1, by simp [h2, List.replicate_succ]⟩
    · simp only [Option.some.injEq] at h
      subst h
      exact ⟨rfl, 0, rfl⟩
    · cases hrec : wait_loop pending (i + 1) fuel g with
      | none => simp [hrec] at h
      | some r2 =>
        obtain ⟨h1, n, h2⟩ := ih _ _ _ hrec
        simp only [hrec, Option.map_some', Option.some.injEq] at h
        subst h
        exact ⟨h1, n + 1, by simp [h2, List.replicate_succ]⟩
    · simp only [Option.some.injEq] at h
      subst h
      exact ⟨rfl, 0, rfl⟩

theorem can_open_fails_iff (env : Env) (ifname : List Nat) :
    (can_open env ifname).1 < 0 ↔
      (env.socket_ret < 0 ∨ env.ioctl_ret < 0 ∨ env.bind_ret < 0) := by
  unfold can_open
  by_cases h1 : env.socket_ret < 0
  · simp [h1]
  · by_cases h2 : env.ioctl_ret < 0
    · simp [h1, h2]
    · by_cases h3 : env.bind_ret < 0
      · simp [h1, h2, h3]
      · simp [h1, h2, h3]

theorem can_open_no_session_op (env : Env) (ifname : List Nat) :
    ∀ e ∈ (can_open env ifname).2, e.is_session_op = false := by
  unfold can_open
  by_cases h1 : env.socket_ret < 0
  · simp [h1, Event.is_session_op]
  · by_cases h2 : env.ioctl_ret < 0
    · simp [h1, h2, Event.is_session_op]
    · by_cases h3 : env.bind_ret < 0
      · simp [h1, h2, h3, Event.is_session_op]
      · simp [h1, h2, h3, Event.is_session_op]

/-- C6. With valid arguments (the flag loop completes and the four required
values are set): `main` returns 2 if `can_open` fails, and then performs no
session operation; otherwise 3 if `mosquitto_new` fails; otherwise 4 if
`mosquitto_tls_set` fails; otherwise 5 if `mosquitto_connect` fails;
otherwise, once a signal is pending at the `k`-th evaluation of the wait
loop's condition, it returns 0 after the shutdown sequence for every fuel
above `k`.  The five exit codes are pairwise distinct. -/
theorem main_exit_codes (env : Env) (argv : List (List Nat)) (a : Locals) (g : Globals)
    (host cafile certfile keyfile : List Nat)
    (hparse : parse_flags env.atoi (argv.drop 1) Locals.init Globals.init = (some a, g))
    (hhost : a.host = some host) (hca : a.cafile = some cafile)
    (hcert : a.certfile = some certfile) (hkey : a.keyfile = some keyfile) :
    ((can_open env (c_str g.can_ifname)).1 < 0 →
      ∀ fuel, ∃ o, main env argv fuel = some o ∧ o.ret = 2 ∧
        ∀ e ∈ o.trace, e.is_session_op = false) ∧
    (0 ≤ (can_open env (c_str g.can_ifname)).1 → env.new_ok = false →
      ∀ fuel, ∃ o, main env argv fuel = some o ∧ o.ret = 3) ∧
    (0 ≤ (can_open env (c_str g.can_ifname)).1 → env.new_ok = true →
      env.tls_set_ret ≠ MOSQ_ERR_SUCCESS →
      ∀ fuel, ∃ o, main env argv fuel = some o ∧ o.ret = 4) ∧
    (0 ≤ (can_open env (c_str g.can_ifname)).1 → env.new_ok = true →
      env.tls_set_ret = MOSQ_ERR_SUCCESS → env.connect_ret ≠ MOSQ_ERR_SUCCESS →
      ∀ fuel, ∃ o, main env argv fuel = some o ∧ o.ret = 5) ∧
    (0 ≤ (can_open env (c_str g.can_ifname)).1 → env.new_ok = true →
      env.tls_set_ret = MOSQ_ERR_SUCCESS → env.connect_ret = MOSQ_ERR_SUCCESS →
      ∀ k, env.pending k = true → ∀ fuel, k < fuel →
        ∃ o, main env argv fuel = some o ∧ o.ret = 0 ∧
          Event.stdout Msg.shutting_down ∈ o.trace) ∧
    ((can_open env (c_str g.can_ifname)).1 < 0 ↔
      (env.socket_ret < 0 ∨ env.ioctl_ret < 0 ∨ env.bind_ret < 0)) ∧
    List.Nodup [(2 : Int), 3, 4, 5, 0] := by
  refine ⟨?_, ?_, ?_, ?_, ?_, can_open_fails_iff env _, by decide⟩
  · intro h fuel
    cases hm : main env argv fuel with
    | none => simp only [main, hparse, hhost, hca, hcert, hkey, h, if_true, reduceCtorEq] at hm
    | some o =>
      simp only [main, hparse, hhost, hca, hcert, hkey, h, if_true, Option.some.injEq] at hm
      subst hm
      refine ⟨_, rfl, rfl, ?_⟩
      intro e he
      simp only [List.mem_append, List.mem_cons, List.mem_singleton, List.not_mem_nil,
        or_false] at he
      rcases he with (he | he) | he
      · rcases he with rfl | rfl <;> rfl
      · exact can_open_no_session_op env _ e he
      · rw [he]; rfl
  · intro h hn fuel
    cases hm : main env argv fuel with
    | none => simp only [main, hparse, hhost, hca, hcert, hkey, not_lt.mpr h, hn, if_false, Bool.false_eq_true, not_false_eq_true, if_true, reduceCtorEq] at hm
    | some o =>
      simp only [main, hparse, hhost, hca, hcert, hkey, not_lt.mpr h, hn, if_false, Bool.false_eq_true, not_false_eq_true, if_true, Option.some.injEq] at hm
      subst hm
      exact ⟨_, rfl, rfl⟩
  · intro h hn ht fuel
    cases hm : main env argv fuel with
    | none => simp only [main, hparse, hhost, hca, hcert, hkey, not_lt.mpr h, hn, if_false, not_true_eq_false, ht, ne_eq, not_false_eq_true, if_true, reduceCtorEq] at hm
    | some o =>
      simp only [main, hparse, hhost, hca, hcert, hkey, not_lt.mpr h, hn, if_false, not_true_eq_false, ht, ne_eq, not_false_eq_true, if_true, Option.some.injEq] at hm
      subst hm
      exact ⟨_, rfl, rfl⟩
  · intro h hn ht hc fuel
    cases hm : main env argv fuel with
    | none => simp only [main, hparse, hhost, hca, hcert, hkey, not_lt.mpr h, hn, if_false, not_true_eq_false, ht, ne_eq, hc, not_false_eq_true, if_true, reduceCtorEq] at hm
    | some o =>
      simp only [main, hparse, hhost, hca, hcert, hkey, not_lt.mpr h, hn, if_false, not_true_eq_false, ht, ne_eq, hc, not_false_eq_true, if_true, Option.some.injEq] at hm
      subst hm
      exact ⟨_, rfl, rfl⟩
  · intro h hn ht hc k hk fuel hf
    obtain ⟨r, hr⟩ := wait_loop_terminates env.pending k hk fuel 0
      { g with can_sock := (can_open env (c_str g.can_ifname)).1 } (Nat.zero_le k) (by omega)
    cases hm : main env argv fuel with
    | none => simp only [main, hparse, hhost, hca, hcert, hkey, not_lt.mpr h, hn, if_false, not_true_eq_false, ht, ne_eq, hc, hr, reduceCtorEq] at hm
    | some o =>
      simp only [main, hparse, hhost, hca, hcert, hkey, not_lt.mpr h, hn, if_false, not_true_eq_false, ht, ne_eq, hc, hr, Option.some.injEq] at hm
      subst hm
      exact ⟨_, rfl, rfl, by simp⟩

/-- Witness for C6: a run in which everything succeeds and the signal arrives
during the second sleep. -/
theorem main_exit_codes_witness :
    ∃ o, main example_env example_argv 3 = some o ∧ o.ret = 0 ∧
      Event.stdout Msg.shutting_down ∈ o.trace :=
  (main_exit_codes example_env example_argv
    { host := some (lit "h"), port := 8883, cafile := some (lit "ca"),
      certfile := some (lit "c"), keyfile := some (lit "k") }
    Globals.init (lit "h") (lit "ca") (lit "c") (lit "k")
    (by decide) rfl rfl rfl rfl).2.2.2.2.1 (by decide) rfl rfl rfl 2 rfl 3 (by decide)

/-! ## `main`: handles -/

theorem replay_append (step : Res → Event → Option Res) (a b : List Event) :
    ∀ s, replay step s (a ++ b) = (replay step s a).bind (fun s2 => replay step s2 b) := by
  induction a with
  | nil => intro s; rfl
  | cons e es ih =>
    intro s
    simp only [List.cons_append, replay]
    cases step s e with
    | none => rfl
    | some s2 => exact ih s2

theorem replay_sleeps (step : Res → Event → Option Res)
    (hstep : ∀ s, step s (Event.sleep 1) = some s) (n : Nat) (s : Res) :
    replay step s (List.replicate n (Event.sleep 1)) = some s := by
  induction n with
  | zero => rfl
  | succ n ih => simp [List.replicate_succ, replay, hstep, ih]

theorem bus_step_sleep (s : Res) : bus_step s (Event.sleep 1) = some s := by
  cases s <;> rfl

theorem session_step_sleep (s : Res) : session_step s (Event.sleep 1) = some s := by
  cases s <;> rfl

theorem opens_sleeps (n : Nat) : opens (List.replicate n (Event.sleep 1)) = [] := by
  induction n with
  | zero => rfl
  | succ n ih => simp [List.replicate_succ, opens, ih]

theorem closes_sleeps (n : Nat) : closes (List.replicate n (Event.sleep 1)) = [] := by
  induction n with
  | zero => rfl
  | succ n ih => simp [List.replicate_succ, closes, ih]

theorem constructions_sleeps (n : Nat) :
    constructions (List.replicate n (Event.sleep 1)) = [] := by
  induction n with
  | zero => rfl
  | succ n ih => simp [List.replicate_succ, constructions, ih]

theorem destroys_sleeps (n : Nat) :
    (List.replicate n (Event.sleep 1)).count Event.destroy = 0 := by
  simp [List.count_replicate]

/-- What `can_open` does to the descriptor it requests. -/
theorem can_open_summary (env : Env) (ifname : List Nat) :
    opens (can_open env ifname).2 = [env.socket_ret] ∧
    closes (can_open env ifname).2
      = (if (can_open env ifname).1 < 0 ∧ 0 ≤ env.socket_ret then [env.socket_ret] else []) ∧
    constructions (can_open env ifname).2 = [] ∧
    (can_open env ifname).2.count Event.destroy = 0 ∧
    replay bus_step Res.fresh (can_open env ifname).2
      = some (if env.socket_ret < 0 then Res.failed
              else if (can_open env ifname).1 < 0 then Res.released
              else Res.held env.socket_ret) ∧
    (∀ st, replay session_step st (can_open env ifname).2 = some st) ∧
    (0 ≤ (can_open env ifname).1 → (can_open env ifname).1 = env.socket_ret) := by
  unfold can_open
  by_cases h1 : env.socket_ret < 0
  · refine ⟨?_, ?_, ?_, ?_, ?_, ?_, ?_⟩ <;>
      simp [h1, opens, closes, constructions, replay, bus_step, not_le.mpr h1]
    intro st; cases st <;> simp [session_step]
  · have h1b : 0 ≤ env.socket_ret := not_lt.mp h1
    by_cases h2 : env.ioctl_ret < 0
    · refine ⟨?_, ?_, ?_, ?_, ?_, ?_, ?_⟩ <;>
        simp [h1, h2, h1b, opens, closes, constructions, replay, bus_step]
      intro st; cases st <;> simp [session_step]
    · by_cases h3 : env.bind_ret < 0
      · refine ⟨?_, ?_, ?_, ?_, ?_, ?_, ?_⟩ <;>
          simp [h1, h2, h3, h1b, opens, closes, constructions, replay, bus_step]
        intro st; cases st <;> simp [session_step]
      · refine ⟨?_, ?_, ?_, ?_, ?_, ?_, ?_⟩ <;>
          simp [h1, h2, h3, h1b, opens, closes, constructions, replay, bus_step]
        intro st; cases st <;> simp [session_step]

theorem opens_append (a b : List Event) : opens (a ++ b) = opens a ++ opens b := by
  simp [opens]

theorem closes_append (a b : List Event) : closes (a ++ b) = closes a ++ closes b := by
  simp [closes]

theorem constructions_append (a b : List Event) :
    constructions (a ++ b) = constructions a ++ constructions b := by
  simp [constructions]

theorem opens_nil : opens [] = [] := rfl

theorem closes_nil : closes [] = [] := rfl

theorem constructions_nil : constructions [] = [] := rfl

theorem opens_cons (e : Event) (es : List Event) :
    opens (e :: es) = (match e with
      | Event.socket r => [r]
      | _ => []) ++ opens es := by
  cases e <;> simp [opens]

theorem closes_cons (e : Event) (es : List Event) :
    closes (e :: es) = (match e with
      | Event.close fd => [fd]
      | _ => []) ++ closes es := by
  cases e <;> simp [closes]

theorem constructions_cons (e : Event) (es : List Event) :
    constructions (e :: es) = (match e with
      | Event.mosquitto_new ok => [ok]
      | _ => []) ++ constructions es := by
  cases e <;> simp [constructions]

/-- C7. On every path on which `main` returns: `socket` is called at most
once; the descriptors closed are exactly the descriptors successfully opened,
once each (so nothing is closed that was not obtained); `mosquitto_new` is
called at most once; `mosquitto_destroy` is called once if it returned an
object and never otherwise; and in program order each request comes first,
each release after its successful request, and no handle is still held when
`main` returns. -/
theorem main_releases_handles (env : Env) (argv : List (List Nat)) (fuel : Nat) (o : Outcome)
    (h : main env argv fuel = some o) :
    (opens o.trace).length ≤ 1 ∧
    closes o.trace = (opens o.trace).filter (fun fd => decide (0 ≤ fd)) ∧
    (constructions o.trace).length ≤ 1 ∧
    o.trace.count Event.destroy = (constructions o.trace).count true ∧
    discipline bus_step o.trace = true ∧
    discipline session_step o.trace = true := by
  have husage : ∀ (g : Globals),
      some ({ ret := 1, trace := [Event.stderr (Msg.usage argv.head?)], globals := g } : Outcome)
        = some o →
      (opens o.trace).length ≤ 1 ∧
      closes o.trace = (opens o.trace).filter (fun fd => decide (0 ≤ fd)) ∧
      (constructions o.trace).length ≤ 1 ∧
      o.trace.count Event.destroy = (constructions o.trace).count true ∧
      discipline bus_step o.trace = true ∧
      discipline session_step o.trace = true := by
    intro g hg
    simp only [Option.some.injEq] at hg
    subst hg
    simp [opens_nil, closes_nil, constructions_nil, opens_cons, closes_cons,
      constructions_cons, discipline, replay, bus_step, session_step]
  unfold main at h
  cases hp : parse_flags env.atoi (argv.drop 1) Locals.init Globals.init with
  | mk oa g =>
    rw [hp] at h
    cases oa with
    | none => exact husage g h
    | some a =>
      obtain ⟨host, port, cafile, certfile, keyfile⟩ := a
      cases host with
      | none => exact husage g h
      | some host =>
      cases cafile with
      | none => exact husage g h
      | some cafile =>
      cases certfile with
      | none => exact husage g h
      | some certfile =>
      cases keyfile with
      | none => exact husage g h
      | some keyfile =>
        clear husage hp
        obtain ⟨s1, s2, s3, s4, s5, s6, s7⟩ := can_open_summary env (c_str g.can_ifname)
        simp only at h
        by_cases hopen : (can_open env (c_str g.can_ifname)).1 < 0
        · simp only [hopen, if_true, Option.some.injEq] at h
          subst h
          by_cases hs : env.socket_ret < 0
          · simp [opens_append, closes_append, constructions_append, discipline, replay_append,
              s1, s2, s3, s4, s5, s6, hopen, hs, not_le.mpr hs, opens_nil, closes_nil,
              constructions_nil, opens_cons, closes_cons, constructions_cons,
              replay, bus_step, session_step]
          · simp [opens_append, closes_append, constructions_append, discipline, replay_append,
              s1, s2, s3, s4, s5, s6, hopen, hs, not_lt.mp hs, opens_nil, closes_nil,
              constructions_nil, opens_cons, closes_cons, constructions_cons,
              replay, bus_step, session_step]
        · have hfd := s7 (not_lt.mp hopen)
          have hs : ¬ env.socket_ret < 0 := by rw [← hfd]; exact hopen
          have hs2 : 0 ≤ env.socket_ret := not_lt.mp hs
          simp only [hopen, if_false] at h
          by_cases hnew : env.new_ok = true
          · simp only [hnew, not_true_eq_false, if_false] at h
            by_cases htls : env.tls_set_ret = MOSQ_ERR_SUCCESS
            · simp only [htls, ne_eq, not_true_eq_false, if_false] at h
              by_cases hcon : env.connect_ret = MOSQ_ERR_SUCCESS
              · simp only [hcon, not_true_eq_false, if_false] at h
                cases hw : wait_loop env.pending 0 fuel
                    { g with can_sock := (can_open env (c_str g.can_ifname)).1 } with
                | none => simp [hw] at h
                | some r =>
                  obtain ⟨hsock, n, hsl⟩ := wait_loop_result env.pending fuel 0 _ r hw
                  obtain ⟨sleeps, g2⟩ := r
                  simp only at hsock hsl
                  simp only [hw, Option.some.injEq] at h
                  subst h
                  subst hsl
                  have hg2 : g2.can_sock = env.socket_ret := by rw [hsock, hfd]
                  simp [opens_append, closes_append, constructions_append, discipline, replay_append,
              s1, s2, s3, s4, s5, s6, hopen, hs, hs2, hfd, opens_nil, closes_nil,
              constructions_nil, opens_cons, closes_cons, constructions_cons,
              replay, bus_step, session_step, hg2, opens_sleeps, closes_sleeps, constructions_sleeps,
                    destroys_sleeps, replay_sleeps, bus_step_sleep, session_step_sleep]
              · simp only [hcon, not_false_eq_true, if_true, Option.some.injEq] at h
                subst h
                simp [opens_append, closes_append, constructions_append, discipline, replay_append,
              s1, s2, s3, s4, s5, s6, hopen, hs, hs2, hfd, opens_nil, closes_nil,
              constructions_nil, opens_cons, closes_cons, constructions_cons,
              replay, bus_step, session_step]
            · simp only [htls, ne_eq, not_false_eq_true, if_true, Option.some.injEq] at h
              subst h
              simp [opens_append, closes_append, constructions_append, discipline, replay_append,
              s1, s2, s3, s4, s5, s6, hopen, hs, hs2, hfd, opens_nil, closes_nil,
              constructions_nil, opens_cons, closes_cons, constructions_cons,
              replay, bus_step, session_step]
          · have hnew2 : env.new_ok = false := by simpa using hnew
            simp only [hnew2, Bool.false_eq_true, not_false_eq_true, if_true,
              Option.some.injEq] at h
            subst h
            simp [opens_append, closes_append, constructions_append, discipline, replay_append,
              s1, s2, s3, s4, s5, s6, hopen, hs, hs2, hfd, opens_nil, closes_nil,
              constructions_nil, opens_cons, closes_cons, constructions_cons,
              replay, bus_step, session_step, hnew2]

/-- Witness for C7: the run `example_env`, `example_argv` with fuel 3. -/
theorem main_releases_handles_witness :
    ∃ o, main example_env example_argv 3 = some o ∧
      closes o.trace = (opens o.trace).filter (fun fd => decide (0 ≤ fd)) ∧
      discipline bus_step o.trace = true ∧ discipline session_step o.trace = true :=
  match hm : main example_env example_argv 3 with
  | none => absurd hm (by decide)
  | some o =>
    ⟨o, rfl, (main_releases_handles example_env example_argv 3 o hm).2.1,
      (main_releases_handles example_env example_argv 3 o hm).2.2.2.2.1,
      (main_releases_handles example_env example_argv 3 o hm).2.2.2.2.2⟩

/-! ## `main`: arguments -/

/-- A token in flag position that is not a recognized flag sends the flag
loop to its `else` branch. -/
theorem parse_flags_unrecognized (atoi : List Nat → Int) :
    ∀ (args : List (List Nat)) (a : Locals) (g : Globals),
      (∃ t ∈ flag_tokens args, t ∉ recognized_flags) → (parse_flags atoi args a g).1 = none
  | [], _, _, h => by simp [flag_tokens] at h
  | [_], _, _, _ => rfl
  | t :: v :: rest, a, g, h => by
    obtain ⟨t2, hmem, hnot⟩ := h
    simp only [flag_tokens, List.mem_cons] at hmem
    simp only [parse_flags]
    have hrest : (∃ t ∈ flag_tokens rest, t ∉ recognized_flags) ∨ t ∉ recognized_flags := by
      rcases hmem with rfl | hmem
      · exact Or.inr hnot
      · exact Or.inl ⟨t2, hmem, hnot⟩
    rcases hrest with hrest | hbad
    · split_ifs
      all_goals first
        | exact parse_flags_unrecognized atoi rest _ _ hrest
        | rfl
    · simp only [recognized_flags, List.mem_cons, List.mem_singleton, List.not_mem_nil,
        or_false, not_or] at hbad
      obtain ⟨b1, b2, b3, b4, b5, b6⟩ := hbad
      simp [b1, b2, b3, b4, b5, b6]

/-- A variable whose flag is not given keeps its value through the flag
loop. -/
theorem parse_flags_keeps (atoi : List Nat → Int) :
    ∀ (args : List (List Nat)) (a a2 : Locals) (g g2 : Globals),
      parse_flags atoi args a g = (some a2, g2) →
      (given (lit "--host") args = false → a2.host = a.host) ∧
      (given (lit "--port") args = false → a2.port = a.port) ∧
      (given (lit "--cafile") args = false → a2.cafile = a.cafile) ∧
      (given (lit "--cert") args = false → a2.certfile = a.certfile) ∧
      (given (lit "--key") args = false → a2.keyfile = a.keyfile) ∧
      (given (lit "--canif") args = false → g2.can_ifname = g.can_ifname)
  | [], a, a2, g, g2, h => by
    simp only [parse_flags, Prod.mk.injEq, Option.some.injEq] at h
    obtain ⟨rfl, rfl⟩ := h
    simp
  | [_], _, _, _, _, h => by simp [parse_flags] at h
  | t :: v :: rest, a, a2, g, g2, h => by
    simp only [parse_flags] at h
    simp only [given, Bool.or_eq_false_iff, decide_eq_false_iff_not]
    split_ifs at h with h1 h2 h3 h4 h5 h6
    · have ih := parse_flags_keeps atoi rest _ a2 g g2 h
      subst h1
      refine ⟨fun hh => absurd rfl hh.1, fun hh => ih.2.1 hh.2, fun hh => ih.2.2.1 hh.2,
        fun hh => ih.2.2.2.1 hh.2, fun hh => ih.2.2.2.2.1 hh.2, fun hh => ih.2.2.2.2.2 hh.2⟩
    · have ih := parse_flags_keeps atoi rest _ a2 g g2 h
      subst h2
      refine ⟨fun hh => ih.1 hh.2, fun hh => absurd rfl hh.1, fun hh => ih.2.2.1 hh.2,
        fun hh => ih.2.2.2.1 hh.2, fun hh => ih.2.2.2.2.1 hh.2, fun hh => ih.2.2.2.2.2 hh.2⟩
    · have ih := parse_flags_keeps atoi rest _ a2 g g2 h
      subst h3
      refine ⟨fun hh => ih.1 hh.2, fun hh => ih.2.1 hh.2, fun hh => absurd rfl hh.1,
        fun hh => ih.2.2.2.1 hh.2, fun hh => ih.2.2.2.2.1 hh.2, fun hh => ih.2.2.2.2.2 hh.2⟩
    · have ih := parse_flags_keeps atoi rest _ a2 g g2 h
      subst h4
      refine ⟨fun hh => ih.1 hh.2, fun hh => ih.2.1 hh.2, fun hh => ih.2.2.1 hh.2,
        fun hh => absurd rfl hh.1, fun hh => ih.2.2.2.2.1 hh.2, fun hh => ih.2.2.2.2.2 hh.2⟩
    · have ih := parse_flags_keeps atoi rest _ a2 g g2 h
      subst h5
      refine ⟨fun hh => ih.1 hh.2, fun hh => ih.2.1 hh.2, fun hh => ih.2.2.1 hh.2,
        fun hh => ih.2.2.2.1 hh.2, fun hh => absurd rfl hh.1, fun hh => ih.2.2.2.2.2 hh.2⟩
    · have ih := parse_flags_keeps atoi rest _ a2 _ g2 h
      subst h6
      refine ⟨fun hh => ih.1 hh.2, fun hh => ih.2.1 hh.2, fun hh => ih.2.2.1 hh.2,
        fun hh => ih.2.2.2.1 hh.2, fun hh => ih.2.2.2.2.1 hh.2, fun hh => absurd rfl hh.1⟩
    · simp at h

/-- C9. If a required flag (`--host`, `--cafile`, `--cert`, `--key`) is not
given, or a token in flag position is not one of the six recognized flags,
`main` prints the usage text on standard error and returns 1, with no other
event (no bus open, no session operation).  When the flag loop completes and
`--port` is not given the port is 8883; when `--canif` is not given the
interface name is "can0". -/
theorem main_usage (env : Env) (argv : List (List Nat)) (fuel : Nat) :
    (((∃ f ∈ required_flags, given f (argv.drop 1) = false) ∨
      (∃ t ∈ flag_tokens (argv.drop 1), t ∉ recognized_flags)) →
      ∃ g, main env argv fuel
        = some { ret := 1, trace := [Event.stderr (Msg.usage argv.head?)], globals := g }) ∧
    (∀ a g, parse_flags env.atoi (argv.drop 1) Locals.init Globals.init = (some a, g) →
      (given (lit "--port") (argv.drop 1) = false → a.port = 8883) ∧
      (given (lit "--canif") (argv.drop 1) = false → c_str g.can_ifname = lit "can0")) := by
  constructor
  · intro h
    cases hp : parse_flags env.atoi (argv.drop 1) Locals.init Globals.init with
    | mk oa g =>
      cases oa with
      | none => exact ⟨g, by simp only [main, hp]⟩
      | some a =>
        rcases h with ⟨f, hf, hgiven⟩ | hbad
        · have keep := parse_flags_keeps env.atoi (argv.drop 1) Locals.init a Globals.init g hp
          obtain ⟨k1, _, k3, k4, k5, _⟩ := keep
          refine ⟨g, ?_⟩
          simp only [required_flags, List.mem_cons, List.mem_singleton, List.not_mem_nil,
            or_false] at hf
          obtain ⟨host, port, cafile, certfile, keyfile⟩ := a
          rcases hf with rfl | rfl | rfl | rfl
          · have : host = none := k1 hgiven
            subst this
            simp only [main, hp]
          · have : cafile = none := k3 hgiven
            subst this
            cases host <;> simp only [main, hp]
          · have : certfile = none := k4 hgiven
            subst this
            cases host <;> cases cafile <;> simp only [main, hp]
          · have : keyfile = none := k5 hgiven
            subst this
            cases host <;> cases cafile <;> cases certfile <;> simp only [main, hp]
        · have := parse_flags_unrecognized env.atoi (argv.drop 1) Locals.init Globals.init hbad
          rw [hp] at this
          simp at this
  · intro a g hp
    have keep := parse_flags_keeps env.atoi (argv.drop 1) Locals.init a Globals.init g hp
    refine ⟨fun h => keep.2.1 h, fun h => ?_⟩
    rw [keep.2.2.2.2.2 h]
    decide

/-- Witness for C9: `--key` is missing, and `--verbose` is not a flag. -/
theorem main_usage_witness :
    (∃ g, main example_env (["tcu", "--host", "h", "--cafile", "ca", "--cert", "c"].map lit) 3
      = some { ret := 1, trace := [Event.stderr (Msg.usage (some (lit "tcu")))], globals := g }) ∧
    (∃ g, main example_env (example_argv ++ [lit "--verbose"]) 3
      = some { ret := 1, trace := [Event.stderr (Msg.usage (some (lit "tcu")))], globals := g }) :=
  ⟨(main_usage example_env (["tcu", "--host", "h", "--cafile", "ca", "--cert", "c"].map lit) 3).1
      (Or.inl ⟨lit "--key", by decide, by decide⟩),
   (main_usage example_env (example_argv ++ [lit "--verbose"]) 3).1
      (Or.inr ⟨lit "--verbose", by decide, by decide⟩)⟩

end TCU
